import Mathlib

/-!
Verification of the gllabel glyph preprocessor against its specification.

The development shallowly embeds the relevant C++ source files:
  * `GridGlyph.cpp`  — VGrid construction and the atlas cell encoder,
  * `types.cpp`      — quadratic-Bezier / axis-aligned-line intersection,
  * `lib/cubic2quad.cpp` — cubic-to-quadratic approximation,
  * `lib/outline.cpp`    — outline decomposition,
  * `lib/gllabel.cpp`    — the glyph manager (`GetGlyphForCodepoint`).

Machine floating point is idealized as exact rational arithmetic; the libm
routines the code calls (`sqrt`, `pow`, `acos`, `cos`) are external library
functions and are modelled as explicit function parameters.  Where IEEE
special values (NaN, infinity) decide control flow, the corresponding filter
is written as an explicit branch and commented at the definition site.
-/

/- ===================================================================
   GridGlyph.cpp, lines 145-152: reserved cell byte values.
   =================================================================== -/

def kBezierIndexUnused : ℕ := 0

def kBezierIndexSortMeta : ℕ := 1

def kBezierIndexFirstReal : ℕ := 2

/-- The four bytes of one grid-atlas texel (`this->depth` = kAtlasChannels = 4). -/
structure Texel where
  b0 : ℕ
  b1 : ℕ
  b2 : ℕ
  b3 : ℕ
deriving DecidableEq, Repr

instance : Inhabited Texel := ⟨⟨0, 0, 0, 0⟩⟩

/-- `data[i] = (uint8_t)(*it) + kBezierIndexFirstReal` (GridGlyph.cpp line 204):
the index is first narrowed to `uint8_t`, then the biased sum is stored back
into a `uint8_t` byte, so both steps reduce modulo 256. -/
def biasIndex (s : ℕ) : ℕ := (s % 256 + kBezierIndexFirstReal) % 256

/-- The "clear texel, then write out the first `min(|S|, depth)` bezier indices
in ascending order" part of `VGridAtlas::WriteVGridCellAt` (lines 190-206).
`S` is the cell's curve index set in the order a `std::set<size_t>` iterates,
i.e. sorted ascending. -/
def initTexel (S : List ℕ) : Texel :=
  match S with
  | [] => ⟨0, 0, 0, 0⟩
  | [a] => ⟨biasIndex a, 0, 0, 0⟩
  | [a, b] => ⟨biasIndex a, biasIndex b, 0, 0⟩
  | [a, b, c] => ⟨biasIndex a, biasIndex b, biasIndex c, 0⟩
  | a :: b :: c :: d :: _ => ⟨biasIndex a, biasIndex b, biasIndex c, biasIndex d⟩

/-- `VGridAtlas::WriteVGridCellAt` (GridGlyph.cpp lines 176-237) restricted to
one texel: write the biased indices, then encode `midInside` by the ordering
of `data[0]` and `data[1]` (with the sort-meta value 1 for an empty cell). -/
def writeVGridCellAt (S : List ℕ) (midInside : Bool) : Texel :=
  let d := initTexel S
  if midInside then
    if S.length = 0 then { d with b0 := kBezierIndexSortMeta }
    else if S.length = 1 then d
    else { d with b0 := d.b1, b1 := d.b0 }
  else
    if S.length = 1 then { d with b1 := d.b0, b0 := kBezierIndexUnused }
    else d

def texelBytes (t : Texel) : List ℕ := [t.b0, t.b1, t.b2, t.b3]

/-- The index set a reader recovers from a stored texel: take the nonzero
bytes, ignore the sort-meta value 1, and subtract the +2 bias. -/
def storedIndices (t : Texel) : Finset ℕ :=
  (((texelBytes t).filter (fun b => decide (2 ≤ b))).map (fun b => b - 2)).toFinset

theorem biasIndex_eq {s : ℕ} (h : s < 254) : biasIndex s = s + 2 := by
  unfold biasIndex kBezierIndexFirstReal
  rw [Nat.mod_eq_of_lt (by omega), Nat.mod_eq_of_lt (by omega)]

/-- C1 amended: the encoder postcondition holds only for cells whose curve
indices are all below 254 — the `uint8_t` +2 bias wraps 254 to 0 and 255 to
1 (see the counterexample), and nothing in the program bounds a cell's
indices.  Under that bound, for every sorted cell index set `S` and
mid-inside flag `m`: after the write, `(b0 > b1) ↔ m` whenever `|S| ≥ 2`;
`(b0 ≠ 0 ∨ b1 ≠ 0) ↔ (|S| ≥ 1 ∨ m)`; and the set of indices recovered by
subtracting the +2 bias from the nonzero stored bytes (ignoring the
sort-meta value 1) equals `S` truncated to its 4 smallest elements. -/
theorem writeVGridCellAt_postcondition (S : List ℕ) (m : Bool)
    (hsort : List.Sorted (· < ·) S) (hlt : ∀ s ∈ S, s < 254) :
    (2 ≤ S.length →
      ((writeVGridCellAt S m).b0 > (writeVGridCellAt S m).b1 ↔ m = true)) ∧
    (((writeVGridCellAt S m).b0 ≠ 0 ∨ (writeVGridCellAt S m).b1 ≠ 0) ↔
      (1 ≤ S.length ∨ m = true)) ∧
    storedIndices (writeVGridCellAt S m) = (S.take 4).toFinset := by
  match S with
  | [] =>
    cases m <;>
      simp [writeVGridCellAt, initTexel, storedIndices, texelBytes, kBezierIndexSortMeta,
        kBezierIndexUnused]
  | [a] =>
    have ha : a < 254 := hlt a (by simp)
    cases m <;>
      simp_all [writeVGridCellAt, initTexel, storedIndices, texelBytes,
        biasIndex_eq ha, kBezierIndexUnused, List.filter]
  | [a, b] =>
    have ha : a < 254 := hlt a (by simp)
    have hb : b < 254 := hlt b (by simp)
    have hab : a < b := List.rel_of_sorted_cons hsort b (by simp)
    cases m <;>
      simp_all [writeVGridCellAt, initTexel, storedIndices, texelBytes,
        biasIndex_eq ha, biasIndex_eq hb, List.filter] <;>
      first | omega | (ext x; simp; omega)
  | [a, b, c] =>
    have ha : a < 254 := hlt a (by simp)
    have hb : b < 254 := hlt b (by simp)
    have hc : c < 254 := hlt c (by simp)
    have hab : a < b := List.rel_of_sorted_cons hsort b (by simp)
    cases m <;>
      simp_all [writeVGridCellAt, initTexel, storedIndices, texelBytes,
        biasIndex_eq ha, biasIndex_eq hb, biasIndex_eq hc, List.filter] <;>
      first | omega | (ext x; simp; omega)
  | a :: b :: c :: d :: rest =>
    have ha : a < 254 := hlt a (by simp)
    have hb : b < 254 := hlt b (by simp)
    have hc : c < 254 := hlt c (by simp)
    have hd : d < 254 := hlt d (by simp)
    have hab : a < b := List.rel_of_sorted_cons hsort b (by simp)
    cases m <;>
      simp_all [writeVGridCellAt, initTexel, storedIndices, texelBytes,
        biasIndex_eq ha, biasIndex_eq hb, biasIndex_eq hc, biasIndex_eq hd, List.filter] <;>
      first | omega | (ext x; simp; omega)

/-- Witness for C1 at `S = [3, 7]`, `m = true`. -/
theorem writeVGridCellAt_postcondition_witness :
    (List.Sorted (· < ·) [3, 7] ∧ ∀ s ∈ [3, 7], s < 254) ∧
    ((2 ≤ ([3, 7] : List ℕ).length →
      ((writeVGridCellAt [3, 7] true).b0 > (writeVGridCellAt [3, 7] true).b1 ↔ true = true)) ∧
    (((writeVGridCellAt [3, 7] true).b0 ≠ 0 ∨ (writeVGridCellAt [3, 7] true).b1 ≠ 0) ↔
      (1 ≤ ([3, 7] : List ℕ).length ∨ true = true)) ∧
    storedIndices (writeVGridCellAt [3, 7] true) = (([3, 7] : List ℕ).take 4).toFinset) :=
  ⟨⟨by decide, by decide⟩,
    writeVGridCellAt_postcondition [3, 7] true (by decide) (by decide)⟩

/-- C1 counterexample: at the sorted cell set `S = [254, 255]` — reachable,
since nothing in the program bounds a cell's curve indices (the
`kMaxBeziersPerGrid` check is commented out and the curve-count guard of the
manager is dead code) — the `uint8_t` +2 bias of `data[i] = (uint8_t)(*it) +
kBezierIndexFirstReal` wraps 254 to 0 and 255 to 1, the texel stores bytes
`(0, 1, 0, 0)`, and the set of indices recovered by subtracting the bias
from the nonzero stored bytes (ignoring the sort-meta value 1) is empty
instead of `{254, 255}`: the frozen postcondition is false. -/
theorem writeVGridCellAt_wrap_counterexample :
    List.Sorted (· < ·) [254, 255] ∧
    writeVGridCellAt [254, 255] false = ⟨0, 1, 0, 0⟩ ∧
    storedIndices (writeVGridCellAt [254, 255] false) = ∅ ∧
    (([254, 255] : List ℕ).take 4).toFinset ≠ (∅ : Finset ℕ) := by
  refine ⟨by decide, by decide, by decide, by decide⟩

/- ===================================================================
   types.hpp: Vec2 and Bezier2.  Float coordinates are idealized as ℚ.
   =================================================================== -/

/-- `Vec2` (types.hpp): two floats; the `w`/`h` union aliases of `x`/`y` are
not modelled separately. -/
structure Vec2Q where
  x : ℚ
  y : ℚ
deriving DecidableEq, Repr

instance : Inhabited Vec2Q := ⟨⟨0, 0⟩⟩

/-- `Bezier2` (types.hpp): endpoints `e0`, `e1`, control point `c`. -/
structure Bezier2Q where
  e0 : Vec2Q
  e1 : Vec2Q
  c : Vec2Q
deriving DecidableEq, Repr

instance : Inhabited Bezier2Q := ⟨⟨⟨0, 0⟩, ⟨0, 0⟩, ⟨0, 0⟩⟩⟩

/-- A C cast from a floating value to an integer type truncates toward zero. -/
def ratTrunc (q : ℚ) : ℤ := if q < 0 then -⌊-q⌋ else ⌊q⌋

/-- A float-to-`uint16_t` conversion: truncate toward zero, then narrow.  For
values outside `[0, 65536)` the C conversion is undefined behavior; the model
wraps nonnegative values and maps negative ones to 0, and no theorem below
depends on the out-of-range case. -/
def toU16 (q : ℚ) : ℕ := (ratTrunc q).toNat % 65536

/-- `write_bezier_to_buffer` (lib/gllabel.cpp lines 567-577): the six written
`uint16` values, in write order.  Each is `coord * UINT16_MAX / glyph_dim`
converted float-to-uint16 — no rounding and no clamping appear in the source. -/
def writeBezierToBuffer (b : Bezier2Q) (w h : ℚ) : List ℕ :=
  [toU16 (b.e0.x * 65535 / w), toU16 (b.e0.y * 65535 / h),
   toU16 (b.c.x * 65535 / w), toU16 (b.c.y * 65535 / h),
   toU16 (b.e1.x * 65535 / w), toU16 (b.e1.y * 65535 / h)]

/-- C4 counterexample: with coordinate 1 and glyph dimension 2 the exact value
`1 * 65535 / 2 = 32767.5` is stored as its truncation 32767, while the claimed
`round(v * 65535 / glyph_dim)` is 32768, so the stored value is not the
rounded one. -/
theorem writeBezierToBuffer_not_round :
    (writeBezierToBuffer ⟨⟨1, 1⟩, ⟨1, 1⟩, ⟨1, 1⟩⟩ 2 2).headD 0 = 32767 ∧
    round ((1 : ℚ) * 65535 / 2) = 32768 ∧
    ¬ ((32767 : ℤ) = round ((1 : ℚ) * 65535 / 2)) := by
  refine ⟨?_, ?_, by norm_num [round_eq]⟩
  · norm_num [writeBezierToBuffer, toU16, ratTrunc]
    decide
  · norm_num [round_eq]

theorem toU16_of_range {v dim : ℚ} (hd : 0 < dim) (h0 : 0 ≤ v) (h1 : v ≤ dim) :
    toU16 (v * 65535 / dim) = (ratTrunc (v * 65535 / dim)).toNat ∧
    (ratTrunc (v * 65535 / dim)).toNat ≤ 65535 := by
  have hx0 : 0 ≤ v * 65535 / dim := by positivity
  have hx1 : v * 65535 / dim ≤ 65535 := by
    rw [div_le_iff hd]; nlinarith
  have ht : ratTrunc (v * 65535 / dim) = ⌊v * 65535 / dim⌋ := by
    unfold ratTrunc; rw [if_neg (not_lt.mpr hx0)]
  have hge : (0 : ℤ) ≤ ⌊v * 65535 / dim⌋ := Int.floor_nonneg.mpr hx0
  have hfl : ⌊v * 65535 / dim⌋ ≤ 65535 := by
    have := Int.floor_le_floor (α := ℚ) hx1
    simpa using this
  constructor
  · unfold toU16
    rw [ht]
    exact Nat.mod_eq_of_lt (by omega)
  · rw [ht]; omega

/-- C4 amended: each of the six coordinates is stored as the truncation toward
zero of `v * 65535 / glyph_dim` (not the rounding, and with no clamping in the
source); provided every coordinate lies in `[0, glyph_dim]` — as the
origin-normalized decomposition guarantees — every stored value is ≥ 0 and
≤ 65535. -/
theorem writeBezierToBuffer_trunc_range (b : Bezier2Q) (w h : ℚ)
    (hw : 0 < w) (hh : 0 < h)
    (h1 : 0 ≤ b.e0.x ∧ b.e0.x ≤ w) (h2 : 0 ≤ b.e0.y ∧ b.e0.y ≤ h)
    (h3 : 0 ≤ b.c.x ∧ b.c.x ≤ w) (h4 : 0 ≤ b.c.y ∧ b.c.y ≤ h)
    (h5 : 0 ≤ b.e1.x ∧ b.e1.x ≤ w) (h6 : 0 ≤ b.e1.y ∧ b.e1.y ≤ h) :
    writeBezierToBuffer b w h =
      [(ratTrunc (b.e0.x * 65535 / w)).toNat, (ratTrunc (b.e0.y * 65535 / h)).toNat,
       (ratTrunc (b.c.x * 65535 / w)).toNat, (ratTrunc (b.c.y * 65535 / h)).toNat,
       (ratTrunc (b.e1.x * 65535 / w)).toNat, (ratTrunc (b.e1.y * 65535 / h)).toNat] ∧
    ∀ v ∈ writeBezierToBuffer b w h, v ≤ 65535 := by
  obtain ⟨e1, e2⟩ := toU16_of_range hw h1.1 h1.2
  obtain ⟨e3, e4⟩ := toU16_of_range hh h2.1 h2.2
  obtain ⟨e5, e6⟩ := toU16_of_range hw h3.1 h3.2
  obtain ⟨e7, e8⟩ := toU16_of_range hh h4.1 h4.2
  obtain ⟨e9, e10⟩ := toU16_of_range hw h5.1 h5.2
  obtain ⟨e11, e12⟩ := toU16_of_range hh h6.1 h6.2
  constructor
  · simp [writeBezierToBuffer, e1, e3, e5, e7, e9, e11]
  · intro v hv
    simp [writeBezierToBuffer] at hv
    rcases hv with hv | hv | hv | hv | hv | hv <;> subst hv <;>
      simp_all

/-- Witness for C4 amended at a unit box. -/
theorem writeBezierToBuffer_trunc_range_witness :
    ((0 : ℚ) < 2 ∧ (0 : ℚ) ≤ 1 ∧ (1 : ℚ) ≤ 2) ∧
    (writeBezierToBuffer ⟨⟨1, 1⟩, ⟨1, 1⟩, ⟨1, 1⟩⟩ 2 2 =
      [(ratTrunc ((1 : ℚ) * 65535 / 2)).toNat, (ratTrunc ((1 : ℚ) * 65535 / 2)).toNat,
       (ratTrunc ((1 : ℚ) * 65535 / 2)).toNat, (ratTrunc ((1 : ℚ) * 65535 / 2)).toNat,
       (ratTrunc ((1 : ℚ) * 65535 / 2)).toNat, (ratTrunc ((1 : ℚ) * 65535 / 2)).toNat] ∧
    ∀ v ∈ writeBezierToBuffer ⟨⟨1, 1⟩, ⟨1, 1⟩, ⟨1, 1⟩⟩ 2 2, v ≤ 65535) :=
  ⟨⟨by norm_num, by norm_num, by norm_num⟩,
    writeBezierToBuffer_trunc_range ⟨⟨1, 1⟩, ⟨1, 1⟩, ⟨1, 1⟩⟩ 2 2 (by norm_num) (by norm_num)
      ⟨by norm_num, by norm_num⟩ ⟨by norm_num, by norm_num⟩ ⟨by norm_num, by norm_num⟩
      ⟨by norm_num, by norm_num⟩ ⟨by norm_num, by norm_num⟩ ⟨by norm_num, by norm_num⟩⟩

/- ===================================================================
   types.cpp: Bezier2::IntersectHorz / IntersectVert.
   The libm `sqrt` is passed in as the parameter `rsqrt`.
   =================================================================== -/

/-- `fabs`. -/
def ratAbs (q : ℚ) : ℚ := if q < 0 then -q else q

theorem ratAbs_eq_abs (q : ℚ) : ratAbs q = |q| := by
  unfold ratAbs
  split <;> [exact (abs_of_neg (by assumption)).symm; exact (abs_of_nonneg (by linarith [not_lt.mp (by assumption)])).symm]

/-- `almostEqual` (types.cpp lines 4-7). -/
def almostEqual (a b : ℚ) : Bool := ratAbs (a - b) < 1/100000

/-- The `X_FROM_T` macro (types.cpp line 31). -/
def bezierXat (b : Bezier2Q) (t : ℚ) : ℚ :=
  (1-t)*(1-t)*b.e0.x + 2*t*(1-t)*b.c.x + t*t*b.e1.x

/-- The y component of the curve at parameter `t` (same polynomial as
`X_FROM_T`, on y). -/
def bezierYat (b : Bezier2Q) (t : ℚ) : ℚ :=
  (1-t)*(1-t)*b.e0.y + 2*t*(1-t)*b.c.y + t*t*b.e1.y

/-- `float a = A.y - 2*B.y + C.y` of `IntersectHorz`, with `A = e0`, `B = c`,
`C = e1`. -/
def horzA (b : Bezier2Q) : ℚ := b.e0.y - 2*b.c.y + b.e1.y

/-- The radicand `Y*a + B.y*B.y - A.y*C.y` of `IntersectHorz` (line 45). -/
def horzD (b : Bezier2Q) (Y : ℚ) : ℚ := Y * horzA b + b.c.y * b.c.y - b.e0.y * b.e1.y

/-- `Bezier2::IntersectHorz` (types.cpp lines 23-61), with the out-array
returned as a list in fill order.  Two IEEE corner cases become explicit
branches: when `B.y - C.y = 0` the linear-branch division yields an infinity
or NaN, which fails both `T_VALID` comparisons, and when the radicand is
negative `sqrt` yields NaN, which poisons both candidate `t` values and again
fails `T_VALID`; both therefore produce no roots. -/
def intersectHorz (rsqrt : ℚ → ℚ) (b : Bezier2Q) (Y : ℚ) : List ℚ :=
  if almostEqual (horzA b) 0 then
    if b.c.y - b.e1.y = 0 then []
    else
      let t := (2*b.c.y - b.e1.y - Y) / (2*(b.c.y - b.e1.y))
      if t ≤ 1 ∧ 0 ≤ t then [bezierXat b t] else []
  else
    if horzD b Y < 0 then []
    else
      let s := rsqrt (horzD b Y)
      let t1 := (b.e0.y - b.c.y + s) / horzA b
      let t2 := (b.e0.y - b.c.y - s) / horzA b
      (if t1 ≤ 1 ∧ 0 ≤ t1 then [bezierXat b t1] else []) ++
        (if t2 ≤ 1 ∧ 0 ≤ t2 then [bezierXat b t2] else [])

/-- `Bezier2::IntersectVert` (types.cpp lines 67-75): `IntersectHorz` on the
curve with x and y swapped on every point. -/
def intersectVert (rsqrt : ℚ → ℚ) (b : Bezier2Q) (X : ℚ) : List ℚ :=
  intersectHorz rsqrt ⟨⟨b.e0.y, b.e0.x⟩, ⟨b.e1.y, b.e1.x⟩, ⟨b.c.y, b.c.x⟩⟩ X

/-- C5 counterexample: for the curve with `e0 = (0,0)`, `e1 = (4, 10⁻⁶)`,
`c = (0,0)` and the line `Y = 0`, the coefficient `a = 10⁻⁶` is almost zero
but not zero, so the linear fallback fires and returns the single x-value 1
(at `t = 1/2`), yet no parameter `t ∈ [0,1]` with `B.y(t) = 0` has
`B.x(t) = 1` — the only exact solution is `t = 0` with `B.x(0) = 0`. -/
theorem intersectHorz_inexact_counterexample :
    intersectHorz (fun _ => 0) ⟨⟨0, 0⟩, ⟨4, 1/1000000⟩, ⟨0, 0⟩⟩ 0 = [1] ∧
    ∀ t : ℚ, 0 ≤ t → t ≤ 1 →
      bezierYat ⟨⟨0, 0⟩, ⟨4, 1/1000000⟩, ⟨0, 0⟩⟩ t = 0 →
      bezierXat ⟨⟨0, 0⟩, ⟨4, 1/1000000⟩, ⟨0, 0⟩⟩ t ≠ 1 := by
  constructor
  · norm_num [intersectHorz, almostEqual, ratAbs, horzA, horzD, bezierXat]
  · intro t _ _ hy
    have hy2 : t * t * (1/1000000) = 0 := by
      simpa [bezierYat] using hy
    have ht : t = 0 := by
      have : t * t = 0 := by linarith
      exact mul_self_eq_zero.mp this
    subst ht
    norm_num [bezierXat]

theorem almostEqual_false_ne {a : ℚ} (h : almostEqual a 0 = false) : a ≠ 0 := by
  intro h0
  subst h0
  simp [almostEqual, ratAbs] at h

theorem bezierYat_poly (b : Bezier2Q) (t : ℚ) :
    bezierYat b t = horzA b * t^2 + 2*(b.c.y - b.e0.y)*t + b.e0.y := by
  simp only [bezierYat, horzA]
  ring

/-- The two quadratic-formula candidates solve `B.y(t) = Y` exactly when the
square root is exact. -/
theorem bezierYat_root (b : Bezier2Q) (Y s : ℚ) (ha : horzA b ≠ 0)
    (hs : s * s = horzD b Y) :
    bezierYat b ((b.e0.y - b.c.y + s) / horzA b) = Y ∧
    bezierYat b ((b.e0.y - b.c.y - s) / horzA b) = Y := by
  have hs' : s * s = Y * (b.e0.y - 2*b.c.y + b.e1.y) + b.c.y*b.c.y - b.e0.y*b.e1.y := by
    simpa [horzD, horzA] using hs
  have ha' : b.e0.y - 2*b.c.y + b.e1.y ≠ 0 := by
    simpa [horzA] using ha
  constructor
  · set t := (b.e0.y - b.c.y + s) / horzA b with htdef
    have hat : (b.e0.y - 2*b.c.y + b.e1.y) * t = b.e0.y - b.c.y + s := by
      rw [htdef]
      simp only [horzA]
      field_simp
    have hmain : (b.e0.y - 2*b.c.y + b.e1.y) * (bezierYat b t - Y) = 0 := by
      rw [bezierYat_poly]
      simp only [horzA]
      linear_combination ((b.e0.y - 2*b.c.y + b.e1.y) * t + (b.e0.y - b.c.y + s) +
        2*(b.c.y - b.e0.y)) * hat + hs'
    rcases mul_eq_zero.mp hmain with h | h
    · exact absurd h ha'
    · linarith
  · set t := (b.e0.y - b.c.y - s) / horzA b with htdef
    have hat : (b.e0.y - 2*b.c.y + b.e1.y) * t = b.e0.y - b.c.y - s := by
      rw [htdef]
      simp only [horzA]
      field_simp
    have hmain : (b.e0.y - 2*b.c.y + b.e1.y) * (bezierYat b t - Y) = 0 := by
      rw [bezierYat_poly]
      simp only [horzA]
      linear_combination ((b.e0.y - 2*b.c.y + b.e1.y) * t + (b.e0.y - b.c.y - s) +
        2*(b.c.y - b.e0.y)) * hat + hs'
    rcases mul_eq_zero.mp hmain with h | h
    · exact absurd h ha'
    · linarith

theorem mem_ite_singleton {c : Prop} [Decidable c] {u x : ℚ}
    (h : x ∈ if c then [u] else ([] : List ℚ)) : c ∧ x = u := by
  split at h
  · exact ⟨by assumption, List.mem_singleton.mp h⟩
  · cases h

/-- C5 amended: `intersect_horz` returns at most 2 x-values; each returned
value is `B.x(t)` for some `t ∈ [0, 1]`, and this `t` additionally satisfies
`B.y(t) = Y` exactly whenever the `a`-coefficient is not almost zero (assuming
the square-root routine is exact on nonnegative inputs) or is exactly zero;
and when `a` is not almost zero and the discriminant is negative, no
intersection is returned.  (The original claim asserted `B.y(t) = Y` for every
returned value; the counterexample above shows the almost-zero fallback with
`a ≠ 0` breaks that.) -/
theorem intersectHorz_spec (rsqrt : ℚ → ℚ) (b : Bezier2Q) (Y : ℚ)
    (hsq : 0 ≤ horzD b Y → rsqrt (horzD b Y) * rsqrt (horzD b Y) = horzD b Y) :
    (intersectHorz rsqrt b Y).length ≤ 2 ∧
    (∀ x ∈ intersectHorz rsqrt b Y, ∃ t : ℚ, 0 ≤ t ∧ t ≤ 1 ∧ x = bezierXat b t ∧
      ((almostEqual (horzA b) 0 = false ∨ horzA b = 0) → bezierYat b t = Y)) ∧
    ((almostEqual (horzA b) 0 = false ∧ horzD b Y < 0) →
      intersectHorz rsqrt b Y = []) := by
  by_cases hae : almostEqual (horzA b) 0 = true
  · by_cases hbc : b.c.y - b.e1.y = 0
    · refine ⟨?_, ?_, ?_⟩ <;> simp [intersectHorz, hae, hbc]
    · have hres : intersectHorz rsqrt b Y =
          if (2*b.c.y - b.e1.y - Y) / (2*(b.c.y - b.e1.y)) ≤ 1 ∧
              0 ≤ (2*b.c.y - b.e1.y - Y) / (2*(b.c.y - b.e1.y)) then
            [bezierXat b ((2*b.c.y - b.e1.y - Y) / (2*(b.c.y - b.e1.y)))]
          else [] := by
        simp [intersectHorz, hae, hbc]
      refine ⟨?_, ?_, ?_⟩
      · rw [hres]
        split <;> simp
      · intro x hx
        rw [hres] at hx
        obtain ⟨hc, hxeq⟩ := mem_ite_singleton hx
        refine ⟨(2*b.c.y - b.e1.y - Y) / (2*(b.c.y - b.e1.y)), hc.2, hc.1, hxeq, ?_⟩
        rintro (hf | ha0)
        · rw [hae] at hf; cases hf
        · set t := (2*b.c.y - b.e1.y - Y) / (2*(b.c.y - b.e1.y)) with htdef
          have ha0' : b.e0.y - 2*b.c.y + b.e1.y = 0 := by simpa [horzA] using ha0
          have hbc' : (2*(b.c.y - b.e1.y)) ≠ 0 := by
            intro h0; exact hbc (by linarith)
          have hat : (2*(b.c.y - b.e1.y)) * t = 2*b.c.y - b.e1.y - Y := by
            rw [htdef]; field_simp
          have hmain : (2*(b.c.y - b.e1.y)) * (bezierYat b t - Y) = 0 := by
            rw [bezierYat_poly]
            simp only [horzA]
            linear_combination (2*(b.c.y - b.e0.y)) * hat +
              (2*(b.c.y - b.e1.y)*t^2 - 2*(b.e0.y - Y) + 2*(b.e0.y - b.c.y)) * ha0'
          rcases mul_eq_zero.mp hmain with h | h
          · exact absurd h hbc'
          · linarith
      · rintro ⟨hf, -⟩
        rw [hae] at hf; cases hf
  · have hae' : almostEqual (horzA b) 0 = false := by
      simpa using hae
    have ha : horzA b ≠ 0 := almostEqual_false_ne hae'
    by_cases hd : horzD b Y < 0
    · refine ⟨?_, ?_, ?_⟩ <;> simp [intersectHorz, hae, hd]
    · have hs : rsqrt (horzD b Y) * rsqrt (horzD b Y) = horzD b Y :=
        hsq (not_lt.mp hd)
      obtain ⟨hY1, hY2⟩ := bezierYat_root b Y (rsqrt (horzD b Y)) ha hs
      have hres : intersectHorz rsqrt b Y =
          (if (b.e0.y - b.c.y + rsqrt (horzD b Y)) / horzA b ≤ 1 ∧
              0 ≤ (b.e0.y - b.c.y + rsqrt (horzD b Y)) / horzA b then
            [bezierXat b ((b.e0.y - b.c.y + rsqrt (horzD b Y)) / horzA b)]
          else []) ++
          (if (b.e0.y - b.c.y - rsqrt (horzD b Y)) / horzA b ≤ 1 ∧
              0 ≤ (b.e0.y - b.c.y - rsqrt (horzD b Y)) / horzA b then
            [bezierXat b ((b.e0.y - b.c.y - rsqrt (horzD b Y)) / horzA b)]
          else []) := by
        simp [intersectHorz, hae, hd]
      refine ⟨?_, ?_, fun hcon => absurd hcon.2 hd⟩
      · rw [hres]
        rw [List.length_append]
        have l1 : ∀ (c : Prop) (inst : Decidable c) (u : ℚ),
            (if c then [u] else ([] : List ℚ)).length ≤ 1 := by
          intro c inst u
          split <;> simp
        calc _ ≤ 1 + 1 := Nat.add_le_add (l1 _ _ _) (l1 _ _ _)
        _ = 2 := rfl
      · intro x hx
        rw [hres] at hx
        rcases List.mem_append.mp hx with h | h
        · obtain ⟨hc, hxeq⟩ := mem_ite_singleton h
          exact ⟨_, hc.2, hc.1, hxeq, fun _ => hY1⟩
        · obtain ⟨hc, hxeq⟩ := mem_ite_singleton h
          exact ⟨_, hc.2, hc.1, hxeq, fun _ => hY2⟩

/-- Witness for C5 amended: the parabola `e0 = (0,0)`, `e1 = (1,0)`,
`c = (0,1/2)` against the line `Y = 0` has discriminant 1/4; a square-root
routine that returns the exact root 1/2 satisfies the exactness hypothesis at
that point. -/
theorem intersectHorz_spec_witness :
    ((0 : ℚ) ≤ horzD ⟨⟨0, 0⟩, ⟨1, 0⟩, ⟨0, 1/2⟩⟩ 0 →
      (fun _ : ℚ => (1 : ℚ)/2) (horzD ⟨⟨0, 0⟩, ⟨1, 0⟩, ⟨0, 1/2⟩⟩ 0) *
      (fun _ : ℚ => (1 : ℚ)/2) (horzD ⟨⟨0, 0⟩, ⟨1, 0⟩, ⟨0, 1/2⟩⟩ 0) =
      horzD ⟨⟨0, 0⟩, ⟨1, 0⟩, ⟨0, 1/2⟩⟩ 0) ∧
    ((intersectHorz (fun _ : ℚ => (1 : ℚ)/2) ⟨⟨0, 0⟩, ⟨1, 0⟩, ⟨0, 1/2⟩⟩ 0).length ≤ 2 ∧
    (∀ x ∈ intersectHorz (fun _ : ℚ => (1 : ℚ)/2) ⟨⟨0, 0⟩, ⟨1, 0⟩, ⟨0, 1/2⟩⟩ 0,
      ∃ t : ℚ, 0 ≤ t ∧ t ≤ 1 ∧
      x = bezierXat ⟨⟨0, 0⟩, ⟨1, 0⟩, ⟨0, 1/2⟩⟩ t ∧
      ((almostEqual (horzA ⟨⟨0, 0⟩, ⟨1, 0⟩, ⟨0, 1/2⟩⟩) 0 = false ∨
        horzA ⟨⟨0, 0⟩, ⟨1, 0⟩, ⟨0, 1/2⟩⟩ = 0) →
        bezierYat ⟨⟨0, 0⟩, ⟨1, 0⟩, ⟨0, 1/2⟩⟩ t = 0)) ∧
    ((almostEqual (horzA ⟨⟨0, 0⟩, ⟨1, 0⟩, ⟨0, 1/2⟩⟩) 0 = false ∧
        horzD ⟨⟨0, 0⟩, ⟨1, 0⟩, ⟨0, 1/2⟩⟩ 0 < 0) →
      intersectHorz (fun _ : ℚ => (1 : ℚ)/2) ⟨⟨0, 0⟩, ⟨1, 0⟩, ⟨0, 1/2⟩⟩ 0 = [])) :=
  ⟨by intro _; norm_num [horzD, horzA],
    intersectHorz_spec (fun _ : ℚ => (1 : ℚ)/2) ⟨⟨0, 0⟩, ⟨1, 0⟩, ⟨0, 1/2⟩⟩ 0
      (by intro _; norm_num [horzD, horzA])⟩

/- ===================================================================
   GridGlyph.cpp lines 18-74: find_cells_intersections.
   =================================================================== -/

/-- `clamp` (GridGlyph.cpp lines 11-14): `max(min(v, max), min)`. -/
def clampZ (v lo hi : ℤ) : ℤ := max (min v hi) lo

/-- The row-major cell index targeted by the `setgrid` lambda
(GridGlyph.cpp lines 27-31) after clamping. -/
def cellIndex (gw gh : ℕ) (x y : ℤ) : ℕ :=
  (clampZ y 0 (gh - 1) * gw + clampZ x 0 (gw - 1)).toNat

/-- `setgrid` (GridGlyph.cpp lines 27-31): insert the bezier index into the
clamped cell. -/
def setgrid (gw gh : ℕ) (cells : List (Finset ℕ)) (x y : ℤ) (i : ℕ) :
    List (Finset ℕ) :=
  cells.set (cellIndex gw gh x y) (insert i (cells.getD (cellIndex gw gh x y) ∅))

/-- Cell accessor used by the statements below. -/
def cellGet (cells : List (Finset ℕ)) (n : ℕ) : Finset ℕ := cells.getD n ∅

/-- The `(x, y)` int pairs recorded by the vertical-grid-line loop
(GridGlyph.cpp lines 37-48): for each `x = 0..gridWidth` and each root of
`IntersectVert` at `x * glyphSize.w / gridWidth`, the pair
`(x, (int)(intY[j] * gridHeight / glyphSize.h))`. -/
def vertCrossings (rsqrt : ℚ → ℚ) (b : Bezier2Q) (size : Vec2Q) (gw gh : ℕ) :
    List (ℤ × ℤ) :=
  (List.range (gw + 1)).flatMap (fun (x : ℕ) =>
    (intersectVert rsqrt b ((x : ℚ) * size.x / (gw : ℚ))).map
      (fun iy => ((x : ℤ), ratTrunc (iy * (gh : ℚ) / size.y))))

/-- The `(x, y)` int pairs recorded by the horizontal-grid-line loop
(GridGlyph.cpp lines 51-62). -/
def horzCrossings (rsqrt : ℚ → ℚ) (b : Bezier2Q) (size : Vec2Q) (gw gh : ℕ) :
    List (ℤ × ℤ) :=
  (List.range (gh + 1)).flatMap (fun (y : ℕ) =>
    (intersectHorz rsqrt b ((y : ℚ) * size.y / (gh : ℚ))).map
      (fun ix => (ratTrunc (ix * (gw : ℚ) / size.x), (y : ℤ))))

/-- One iteration of the outer loop of `find_cells_intersections`
(GridGlyph.cpp lines 33-71): mark the cells on both sides of every vertical
and horizontal grid-line crossing of curve `i`, and if there was no crossing
at all, mark the single cell containing `e0`. -/
def processBezier (rsqrt : ℚ → ℚ) (size : Vec2Q) (gw gh : ℕ)
    (cells : List (Finset ℕ)) (b : Bezier2Q) (i : ℕ) : List (Finset ℕ) :=
  let vs := vertCrossings rsqrt b size gw gh
  let hs := horzCrossings rsqrt b size gw gh
  let cells1 := vs.foldl
    (fun cs p => setgrid gw gh (setgrid gw gh cs p.1 p.2 i) (p.1 - 1) p.2 i) cells
  let cells2 := hs.foldl
    (fun cs p => setgrid gw gh (setgrid gw gh cs p.1 p.2 i) p.1 (p.2 - 1) i) cells1
  if vs.isEmpty && hs.isEmpty then
    setgrid gw gh cells2 (ratTrunc (b.e0.x * (gw : ℚ) / size.x))
      (ratTrunc (b.e0.y * (gh : ℚ) / size.y)) i
  else cells2

/-- `find_cells_intersections` (GridGlyph.cpp lines 18-74). -/
def findCellsIntersections (rsqrt : ℚ → ℚ) (beziers : List Bezier2Q)
    (size : Vec2Q) (gw gh : ℕ) : List (Finset ℕ) :=
  (List.range beziers.length).foldl
    (fun cells i => processBezier rsqrt size gw gh cells (beziers.getD i default) i)
    (List.replicate (gw * gh) ∅)

theorem getD_set_self : ∀ (l : List (Finset ℕ)) (n : ℕ) (a : Finset ℕ),
    n < l.length → (l.set n a).getD n ∅ = a := by
  intro l
  induction l with
  | nil => intro n a h; simp at h
  | cons hd tl ih =>
    intro n a h
    cases n with
    | zero => simp
    | succ m =>
      simp only [List.set_cons_succ, List.getD_cons_succ]
      exact ih m a (by simpa using h)

theorem getD_set_ne : ∀ (l : List (Finset ℕ)) (n k : ℕ) (a : Finset ℕ),
    k ≠ n → (l.set n a).getD k ∅ = l.getD k ∅ := by
  intro l
  induction l with
  | nil => intro n k a _; simp
  | cons hd tl ih =>
    intro n k a hk
    cases n with
    | zero =>
      cases k with
      | zero => exact absurd rfl hk
      | succ j => simp
    | succ m =>
      cases k with
      | zero => simp
      | succ j =>
        simp only [List.set_cons_succ, List.getD_cons_succ]
        exact ih m j a (fun h => hk (by omega))

theorem set_of_length_le : ∀ (l : List (Finset ℕ)) (n : ℕ) (a : Finset ℕ),
    l.length ≤ n → l.set n a = l := by
  intro l
  induction l with
  | nil => intro n a _; simp
  | cons hd tl ih =>
    intro n a h
    cases n with
    | zero => simp at h
    | succ m =>
      simp only [List.set_cons_succ]
      rw [ih m a (by simpa using h)]

theorem setgrid_length (gw gh : ℕ) (cells : List (Finset ℕ)) (x y : ℤ) (i : ℕ) :
    (setgrid gw gh cells x y i).length = cells.length := by
  unfold setgrid
  exact List.length_set cells _ _

theorem cellIndex_lt (gw gh : ℕ) (hgw : 0 < gw) (hgh : 0 < gh) (x y : ℤ) :
    cellIndex gw gh x y < gw * gh := by
  unfold cellIndex clampZ
  have hx0 : (0 : ℤ) ≤ max (min x ((gw : ℤ) - 1)) 0 := le_max_right _ _
  have hx1 : max (min x ((gw : ℤ) - 1)) 0 ≤ (gw : ℤ) - 1 := by
    apply max_le (min_le_right _ _)
    omega
  have hy0 : (0 : ℤ) ≤ max (min y ((gh : ℤ) - 1)) 0 := le_max_right _ _
  have hy1 : max (min y ((gh : ℤ) - 1)) 0 ≤ (gh : ℤ) - 1 := by
    apply max_le (min_le_right _ _)
    omega
  have hmul : max (min y ((gh : ℤ) - 1)) 0 * (gw : ℤ) ≤ ((gh : ℤ) - 1) * gw :=
    mul_le_mul_of_nonneg_right hy1 (by positivity)
  have hlt : max (min y ((gh : ℤ) - 1)) 0 * (gw : ℤ) + max (min x ((gw : ℤ) - 1)) 0 <
      (gw : ℤ) * gh := by nlinarith
  have hnn : (0 : ℤ) ≤ max (min y ((gh : ℤ) - 1)) 0 * (gw : ℤ) +
      max (min x ((gw : ℤ) - 1)) 0 := by positivity
  omega

theorem setgrid_self (gw gh : ℕ) (hgw : 0 < gw) (hgh : 0 < gh)
    (cells : List (Finset ℕ)) (hlen : cells.length = gw * gh) (x y : ℤ) (i : ℕ) :
    i ∈ cellGet (setgrid gw gh cells x y i) (cellIndex gw gh x y) := by
  unfold cellGet setgrid
  rw [getD_set_self _ _ _ (by rw [hlen]; exact cellIndex_lt gw gh hgw hgh x y)]
  exact Finset.mem_insert_self i _

theorem setgrid_mono (gw gh : ℕ) (cells : List (Finset ℕ)) (x y : ℤ) (i j k : ℕ)
    (h : j ∈ cellGet cells k) : j ∈ cellGet (setgrid gw gh cells x y i) k := by
  unfold cellGet setgrid at *
  by_cases hk : k = cellIndex gw gh x y
  · by_cases hlt : cellIndex gw gh x y < cells.length
    · rw [hk, getD_set_self _ _ _ hlt]
      exact Finset.mem_insert_of_mem (hk ▸ h)
    · rw [set_of_length_le _ _ _ (by omega)]
      exact h
  · rw [getD_set_ne _ _ _ _ hk]
    exact h

theorem foldl_cellGet_mono {α : Type} (step : List (Finset ℕ) → α → List (Finset ℕ))
    (hstep : ∀ cs p j k, j ∈ cellGet cs k → j ∈ cellGet (step cs p) k)
    (l : List α) :
    ∀ (cs : List (Finset ℕ)) (j k : ℕ),
      j ∈ cellGet cs k → j ∈ cellGet (l.foldl step cs) k := by
  induction l with
  | nil => intro cs j k h; simpa using h
  | cons p t ih =>
    intro cs j k h
    simp only [List.foldl_cons]
    exact ih (step cs p) j k (hstep cs p j k h)

theorem foldl_cellGet_length {α : Type} (step : List (Finset ℕ) → α → List (Finset ℕ))
    (hstep : ∀ cs p, (step cs p).length = cs.length) (l : List α) :
    ∀ cs, (l.foldl step cs).length = cs.length := by
  induction l with
  | nil => intro cs; simp
  | cons p t ih =>
    intro cs
    simp only [List.foldl_cons]
    rw [ih (step cs p), hstep]

theorem foldl_cellGet_establish (gw gh i : ℕ) (f1 f2 : (ℤ × ℤ) → ℕ)
    (step : List (Finset ℕ) → (ℤ × ℤ) → List (Finset ℕ))
    (hmono : ∀ cs p j k, j ∈ cellGet cs k → j ∈ cellGet (step cs p) k)
    (hlen : ∀ cs p, (step cs p).length = cs.length)
    (hself : ∀ cs p, cs.length = gw * gh →
      i ∈ cellGet (step cs p) (f1 p) ∧ i ∈ cellGet (step cs p) (f2 p))
    (l : List (ℤ × ℤ)) :
    ∀ cs, cs.length = gw * gh → ∀ p ∈ l,
      i ∈ cellGet (l.foldl step cs) (f1 p) ∧ i ∈ cellGet (l.foldl step cs) (f2 p) := by
  induction l with
  | nil => intro cs _ p hp; simp at hp
  | cons q t ih =>
    intro cs hl p hp
    simp only [List.foldl_cons]
    rcases List.mem_cons.mp hp with rfl | hp'
    · obtain ⟨h1, h2⟩ := hself cs p hl
      exact ⟨foldl_cellGet_mono step hmono t _ _ _ h1,
        foldl_cellGet_mono step hmono t _ _ _ h2⟩
    · exact ih (step cs q) (by rw [hlen]; exact hl) p hp'

theorem processBezier_length (rsqrt : ℚ → ℚ) (size : Vec2Q) (gw gh : ℕ)
    (cells : List (Finset ℕ)) (b : Bezier2Q) (i : ℕ) :
    (processBezier rsqrt size gw gh cells b i).length = cells.length := by
  simp only [processBezier]
  split
  · rw [setgrid_length,
      foldl_cellGet_length _ (fun cs p => by rw [setgrid_length, setgrid_length]) _,
      foldl_cellGet_length _ (fun cs p => by rw [setgrid_length, setgrid_length]) _]
  · rw [foldl_cellGet_length _ (fun cs p => by rw [setgrid_length, setgrid_length]) _,
      foldl_cellGet_length _ (fun cs p => by rw [setgrid_length, setgrid_length]) _]

theorem processBezier_mono (rsqrt : ℚ → ℚ) (size : Vec2Q) (gw gh : ℕ)
    (cells : List (Finset ℕ)) (b : Bezier2Q) (i j k : ℕ)
    (h : j ∈ cellGet cells k) :
    j ∈ cellGet (processBezier rsqrt size gw gh cells b i) k := by
  simp only [processBezier]
  have step1 := foldl_cellGet_mono
    (fun cs (p : ℤ × ℤ) => setgrid gw gh (setgrid gw gh cs p.1 p.2 i) (p.1 - 1) p.2 i)
    (fun cs p j k h => setgrid_mono _ _ _ _ _ _ _ _ (setgrid_mono _ _ _ _ _ _ _ _ h))
    (vertCrossings rsqrt b size gw gh) cells j k h
  have step2 := foldl_cellGet_mono
    (fun cs (p : ℤ × ℤ) => setgrid gw gh (setgrid gw gh cs p.1 p.2 i) p.1 (p.2 - 1) i)
    (fun cs p j k h => setgrid_mono _ _ _ _ _ _ _ _ (setgrid_mono _ _ _ _ _ _ _ _ h))
    (horzCrossings rsqrt b size gw gh) _ j k step1
  split
  · exact setgrid_mono _ _ _ _ _ _ _ _ step2
  · exact step2

/-- The per-curve coverage established by one iteration of
`find_cells_intersections`: both cells of every recorded crossing hold `i`,
and `i` lands in at least one cell. -/
theorem processBezier_establish (rsqrt : ℚ → ℚ) (size : Vec2Q) (gw gh : ℕ)
    (hgw : 0 < gw) (hgh : 0 < gh)
    (cells : List (Finset ℕ)) (hlen : cells.length = gw * gh)
    (b : Bezier2Q) (i : ℕ) :
    (∀ p ∈ vertCrossings rsqrt b size gw gh,
      i ∈ cellGet (processBezier rsqrt size gw gh cells b i) (cellIndex gw gh p.1 p.2) ∧
      i ∈ cellGet (processBezier rsqrt size gw gh cells b i) (cellIndex gw gh (p.1 - 1) p.2)) ∧
    (∀ p ∈ horzCrossings rsqrt b size gw gh,
      i ∈ cellGet (processBezier rsqrt size gw gh cells b i) (cellIndex gw gh p.1 p.2) ∧
      i ∈ cellGet (processBezier rsqrt size gw gh cells b i) (cellIndex gw gh p.1 (p.2 - 1))) ∧
    ((vertCrossings rsqrt b size gw gh = [] ∧ horzCrossings rsqrt b size gw gh = []) →
      i ∈ cellGet (processBezier rsqrt size gw gh cells b i)
        (cellIndex gw gh (ratTrunc (b.e0.x * (gw : ℚ) / size.x))
          (ratTrunc (b.e0.y * (gh : ℚ) / size.y)))) ∧
    (∃ k, i ∈ cellGet (processBezier rsqrt size gw gh cells b i) k) := by
  have hmono1 : ∀ (cs : List (Finset ℕ)) (p : ℤ × ℤ) (j k : ℕ), j ∈ cellGet cs k →
      j ∈ cellGet (setgrid gw gh (setgrid gw gh cs p.1 p.2 i) (p.1 - 1) p.2 i) k :=
    fun cs p j k h => setgrid_mono _ _ _ _ _ _ _ _ (setgrid_mono _ _ _ _ _ _ _ _ h)
  have hmono2 : ∀ (cs : List (Finset ℕ)) (p : ℤ × ℤ) (j k : ℕ), j ∈ cellGet cs k →
      j ∈ cellGet (setgrid gw gh (setgrid gw gh cs p.1 p.2 i) p.1 (p.2 - 1) i) k :=
    fun cs p j k h => setgrid_mono _ _ _ _ _ _ _ _ (setgrid_mono _ _ _ _ _ _ _ _ h)
  have hlen1 : ∀ (cs : List (Finset ℕ)) (p : ℤ × ℤ),
      (setgrid gw gh (setgrid gw gh cs p.1 p.2 i) (p.1 - 1) p.2 i).length = cs.length :=
    fun cs p => by rw [setgrid_length, setgrid_length]
  have hlen2 : ∀ (cs : List (Finset ℕ)) (p : ℤ × ℤ),
      (setgrid gw gh (setgrid gw gh cs p.1 p.2 i) p.1 (p.2 - 1) i).length = cs.length :=
    fun cs p => by rw [setgrid_length, setgrid_length]
  have hself1 : ∀ (cs : List (Finset ℕ)) (p : ℤ × ℤ), cs.length = gw * gh →
      i ∈ cellGet (setgrid gw gh (setgrid gw gh cs p.1 p.2 i) (p.1 - 1) p.2 i)
        (cellIndex gw gh p.1 p.2) ∧
      i ∈ cellGet (setgrid gw gh (setgrid gw gh cs p.1 p.2 i) (p.1 - 1) p.2 i)
        (cellIndex gw gh (p.1 - 1) p.2) := by
    intro cs p hl
    constructor
    · exact setgrid_mono _ _ _ _ _ _ _ _ (setgrid_self gw gh hgw hgh cs hl p.1 p.2 i)
    · exact setgrid_self gw gh hgw hgh _ (by rw [setgrid_length]; exact hl) (p.1 - 1) p.2 i
  have hself2 : ∀ (cs : List (Finset ℕ)) (p : ℤ × ℤ), cs.length = gw * gh →
      i ∈ cellGet (setgrid gw gh (setgrid gw gh cs p.1 p.2 i) p.1 (p.2 - 1) i)
        (cellIndex gw gh p.1 p.2) ∧
      i ∈ cellGet (setgrid gw gh (setgrid gw gh cs p.1 p.2 i) p.1 (p.2 - 1) i)
        (cellIndex gw gh p.1 (p.2 - 1)) := by
    intro cs p hl
    constructor
    · exact setgrid_mono _ _ _ _ _ _ _ _ (setgrid_self gw gh hgw hgh cs hl p.1 p.2 i)
    · exact setgrid_self gw gh hgw hgh _ (by rw [setgrid_length]; exact hl) p.1 (p.2 - 1) i
  have hcells1len : (((vertCrossings rsqrt b size gw gh).foldl
      (fun cs p => setgrid gw gh (setgrid gw gh cs p.1 p.2 i) (p.1 - 1) p.2 i)
      cells)).length = gw * gh := by
    rw [foldl_cellGet_length _ hlen1]; exact hlen
  have hvert : ∀ p ∈ vertCrossings rsqrt b size gw gh,
      i ∈ cellGet (processBezier rsqrt size gw gh cells b i) (cellIndex gw gh p.1 p.2) ∧
      i ∈ cellGet (processBezier rsqrt size gw gh cells b i) (cellIndex gw gh (p.1 - 1) p.2) := by
    intro p hp
    have h1 := foldl_cellGet_establish gw gh i
      (fun p => cellIndex gw gh p.1 p.2) (fun p => cellIndex gw gh (p.1 - 1) p.2)
      _ hmono1 hlen1 hself1 (vertCrossings rsqrt b size gw gh) cells hlen p hp
    have h2 : ∀ k, i ∈ cellGet ((vertCrossings rsqrt b size gw gh).foldl
        (fun cs p => setgrid gw gh (setgrid gw gh cs p.1 p.2 i) (p.1 - 1) p.2 i) cells) k →
        i ∈ cellGet (processBezier rsqrt size gw gh cells b i) k := by
      intro k hk
      simp only [processBezier]
      have hk2 := foldl_cellGet_mono _ hmono2 (horzCrossings rsqrt b size gw gh) _ i k hk
      split
      · exact setgrid_mono _ _ _ _ _ _ _ _ hk2
      · exact hk2
    exact ⟨h2 _ h1.1, h2 _ h1.2⟩
  have hhorz : ∀ p ∈ horzCrossings rsqrt b size gw gh,
      i ∈ cellGet (processBezier rsqrt size gw gh cells b i) (cellIndex gw gh p.1 p.2) ∧
      i ∈ cellGet (processBezier rsqrt size gw gh cells b i) (cellIndex gw gh p.1 (p.2 - 1)) := by
    intro p hp
    have h1 := foldl_cellGet_establish gw gh i
      (fun p => cellIndex gw gh p.1 p.2) (fun p => cellIndex gw gh p.1 (p.2 - 1))
      _ hmono2 hlen2 hself2 (horzCrossings rsqrt b size gw gh) _ hcells1len p hp
    simp only [processBezier]
    split
    · exact ⟨setgrid_mono _ _ _ _ _ _ _ _ h1.1, setgrid_mono _ _ _ _ _ _ _ _ h1.2⟩
    · exact h1
  have hfall : (vertCrossings rsqrt b size gw gh = [] ∧
      horzCrossings rsqrt b size gw gh = []) →
      i ∈ cellGet (processBezier rsqrt size gw gh cells b i)
        (cellIndex gw gh (ratTrunc (b.e0.x * (gw : ℚ) / size.x))
          (ratTrunc (b.e0.y * (gh : ℚ) / size.y))) := by
    rintro ⟨hvs, hhs⟩
    simp only [processBezier]
    rw [hvs, hhs]
    simp only [List.isEmpty_nil, Bool.and_self, if_true, List.foldl_nil]
    exact setgrid_self gw gh hgw hgh cells hlen _ _ i
  refine ⟨hvert, hhorz, hfall, ?_⟩
  rcases hvs : vertCrossings rsqrt b size gw gh with _ | ⟨p, t⟩
  · rcases hhs : horzCrossings rsqrt b size gw gh with _ | ⟨q, s⟩
    · -- no crossings at all: the fallback setgrid fires
      exact ⟨cellIndex gw gh (ratTrunc (b.e0.x * (gw : ℚ) / size.x))
        (ratTrunc (b.e0.y * (gh : ℚ) / size.y)), hfall ⟨hvs, hhs⟩⟩
    · exact ⟨cellIndex gw gh q.1 q.2, (hhorz q (by rw [hhs]; exact List.mem_cons_self q s)).1⟩
  · exact ⟨cellIndex gw gh p.1 p.2, (hvert p (by rw [hvs]; exact List.mem_cons_self p t)).1⟩

theorem outer_establish (rsqrt : ℚ → ℚ) (size : Vec2Q) (gw gh : ℕ)
    (hgw : 0 < gw) (hgh : 0 < gh) (beziers : List Bezier2Q) :
    ∀ (l : List ℕ) (cs : List (Finset ℕ)), cs.length = gw * gh → ∀ i ∈ l,
      (∀ p ∈ vertCrossings rsqrt (beziers.getD i default) size gw gh,
        i ∈ cellGet (l.foldl (fun cells j =>
            processBezier rsqrt size gw gh cells (beziers.getD j default) j) cs)
          (cellIndex gw gh p.1 p.2) ∧
        i ∈ cellGet (l.foldl (fun cells j =>
            processBezier rsqrt size gw gh cells (beziers.getD j default) j) cs)
          (cellIndex gw gh (p.1 - 1) p.2)) ∧
      (∀ p ∈ horzCrossings rsqrt (beziers.getD i default) size gw gh,
        i ∈ cellGet (l.foldl (fun cells j =>
            processBezier rsqrt size gw gh cells (beziers.getD j default) j) cs)
          (cellIndex gw gh p.1 p.2) ∧
        i ∈ cellGet (l.foldl (fun cells j =>
            processBezier rsqrt size gw gh cells (beziers.getD j default) j) cs)
          (cellIndex gw gh p.1 (p.2 - 1))) ∧
      ((vertCrossings rsqrt (beziers.getD i default) size gw gh = [] ∧
        horzCrossings rsqrt (beziers.getD i default) size gw gh = []) →
        i ∈ cellGet (l.foldl (fun cells j =>
            processBezier rsqrt size gw gh cells (beziers.getD j default) j) cs)
          (cellIndex gw gh
            (ratTrunc ((beziers.getD i default).e0.x * (gw : ℚ) / size.x))
            (ratTrunc ((beziers.getD i default).e0.y * (gh : ℚ) / size.y)))) ∧
      (∃ k, i ∈ cellGet (l.foldl (fun cells j =>
          processBezier rsqrt size gw gh cells (beziers.getD j default) j) cs) k) := by
  intro l
  induction l with
  | nil => intro cs _ i hi; simp at hi
  | cons a t ih =>
    intro cs hl i hi
    simp only [List.foldl_cons]
    rcases List.mem_cons.mp hi with rfl | hi'
    · have hP := processBezier_establish rsqrt size gw gh hgw hgh cs hl
        (beziers.getD i default) i
      have hpres : ∀ k, i ∈ cellGet (processBezier rsqrt size gw gh cs
          (beziers.getD i default) i) k →
          i ∈ cellGet (t.foldl (fun cells j =>
            processBezier rsqrt size gw gh cells (beziers.getD j default) j)
            (processBezier rsqrt size gw gh cs (beziers.getD i default) i)) k := by
        intro k hk
        exact foldl_cellGet_mono _
          (fun cs j a b h => processBezier_mono rsqrt size gw gh cs _ j a b h) t _ i k hk
      exact ⟨fun p hp => ⟨hpres _ (hP.1 p hp).1, hpres _ (hP.1 p hp).2⟩,
        fun p hp => ⟨hpres _ (hP.2.1 p hp).1, hpres _ (hP.2.1 p hp).2⟩,
        fun hno => hpres _ (hP.2.2.1 hno),
        hP.2.2.2.elim (fun k hk => ⟨k, hpres k hk⟩)⟩
    · exact ih (processBezier rsqrt size gw gh cs (beziers.getD a default) a)
        (by rw [processBezier_length]; exact hl) i hi'

/-- C8: for every curve list, glyph size and positive grid dimensions, the
VGrid intersection population puts every curve index `i` into the clamped
cells on both sides of each recorded vertical and horizontal grid-line
crossing; when no crossing at all was recorded, `i` is put into the single
clamped cell containing `B[i].e0` (the cell of the truncated, clamped
`e0 * grid / glyphSize` coordinates); and in every case `i` lands in at
least one cell — no curve is ever dropped from the grid. -/
theorem findCellsIntersections_no_curve_dropped (rsqrt : ℚ → ℚ)
    (beziers : List Bezier2Q) (size : Vec2Q) (gw gh : ℕ)
    (hgw : 0 < gw) (hgh : 0 < gh) (i : ℕ) (hi : i < beziers.length) :
    (∀ p ∈ vertCrossings rsqrt (beziers.getD i default) size gw gh,
      i ∈ cellGet (findCellsIntersections rsqrt beziers size gw gh)
        (cellIndex gw gh p.1 p.2) ∧
      i ∈ cellGet (findCellsIntersections rsqrt beziers size gw gh)
        (cellIndex gw gh (p.1 - 1) p.2)) ∧
    (∀ p ∈ horzCrossings rsqrt (beziers.getD i default) size gw gh,
      i ∈ cellGet (findCellsIntersections rsqrt beziers size gw gh)
        (cellIndex gw gh p.1 p.2) ∧
      i ∈ cellGet (findCellsIntersections rsqrt beziers size gw gh)
        (cellIndex gw gh p.1 (p.2 - 1))) ∧
    ((vertCrossings rsqrt (beziers.getD i default) size gw gh = [] ∧
      horzCrossings rsqrt (beziers.getD i default) size gw gh = []) →
      i ∈ cellGet (findCellsIntersections rsqrt beziers size gw gh)
        (cellIndex gw gh
          (ratTrunc ((beziers.getD i default).e0.x * (gw : ℚ) / size.x))
          (ratTrunc ((beziers.getD i default).e0.y * (gh : ℚ) / size.y)))) ∧
    (∃ k, i ∈ cellGet (findCellsIntersections rsqrt beziers size gw gh) k) := by
  exact outer_establish rsqrt size gw gh hgw hgh beziers (List.range beziers.length)
    (List.replicate (gw * gh) ∅) (by simp) i (List.mem_range.mpr hi)

/-- Witness for C8 at a 1x1 grid with a single degenerate curve. -/
theorem findCellsIntersections_no_curve_dropped_witness :
    (0 < 1 ∧ 0 < 1 ∧ 0 < ([(default : Bezier2Q)]).length) ∧
    ((vertCrossings (fun _ => 0) ([(default : Bezier2Q)].getD 0 default) ⟨1, 1⟩ 1 1 = [] ∧
      horzCrossings (fun _ => 0) ([(default : Bezier2Q)].getD 0 default) ⟨1, 1⟩ 1 1 = []) →
      0 ∈ cellGet
        (findCellsIntersections (fun _ => 0) [(default : Bezier2Q)] ⟨1, 1⟩ 1 1)
        (cellIndex 1 1
          (ratTrunc (([(default : Bezier2Q)].getD 0 default).e0.x * (1 : ℚ) / (1 : ℚ)))
          (ratTrunc (([(default : Bezier2Q)].getD 0 default).e0.y * (1 : ℚ) / (1 : ℚ))))) ∧
    (∃ k, 0 ∈ cellGet
      (findCellsIntersections (fun _ => 0) [(default : Bezier2Q)] ⟨1, 1⟩ 1 1) k) :=
  ⟨⟨by decide, by decide, by decide⟩,
    (findCellsIntersections_no_curve_dropped (fun _ => 0) [(default : Bezier2Q)]
      ⟨1, 1⟩ 1 1 (by decide) (by decide) 0 (by decide)).2.2.1,
    (findCellsIntersections_no_curve_dropped (fun _ => 0) [(default : Bezier2Q)]
      ⟨1, 1⟩ 1 1 (by decide) (by decide) 0 (by decide)).2.2.2⟩

/- ===================================================================
   lib/cubic2quad.cpp.  The libm calls (`sqrt`, `pow(x, 1/3)`, `acos`,
   `cos`) are modelled as the explicit function bundle `FloatFns`.
   =================================================================== -/

/-- `Point` (cubic2quad.cpp lines 30-33). -/
structure Pt where
  x : ℚ
  y : ℚ
deriving DecidableEq, Repr

instance : Inhabited Pt := ⟨⟨0, 0⟩⟩

/-- `QBezier` (cubic2quad.cpp lines 35-39). -/
structure QBezier where
  p1 : Pt
  c1 : Pt
  p2 : Pt
deriving DecidableEq, Repr

instance : Inhabited QBezier := ⟨⟨⟨0, 0⟩, ⟨0, 0⟩, ⟨0, 0⟩⟩⟩

/-- `CBezier` (cubic2quad.cpp lines 41-46). -/
structure CBezier where
  p1 : Pt
  c1 : Pt
  c2 : Pt
  p2 : Pt
deriving DecidableEq, Repr

instance : Inhabited CBezier := ⟨⟨⟨0, 0⟩, ⟨0, 0⟩, ⟨0, 0⟩, ⟨0, 0⟩⟩⟩

/-- The libm routines cubic2quad.cpp calls, as explicit parameters:
`rsqrt` models `sqrt`, `rcbrt` models `pow(x, 1.0/3.0)`, `racos` models
`acos` and `rcos` models `cos`. -/
structure FloatFns where
  rsqrt : ℚ → ℚ
  rcbrt : ℚ → ℚ
  racos : ℚ → ℚ
  rcos : ℚ → ℚ

/-- `PRECISION` (cubic2quad.cpp line 28). -/
def c2qPrecision : ℚ := 1/100000000

/-- The exact value of the binary64 constant `M_PI`. -/
def mPiDouble : ℚ := 884279719003555 / 281474976710656

def p_add (a b : Pt) : Pt := ⟨a.x + b.x, a.y + b.y⟩

def p_sub (a b : Pt) : Pt := ⟨a.x - b.x, a.y - b.y⟩

def p_mul (a : Pt) (v : ℚ) : Pt := ⟨a.x * v, a.y * v⟩

def p_div (a : Pt) (v : ℚ) : Pt := ⟨a.x / v, a.y / v⟩

/-- `p_dist` computes `sqrt(x² + y²)` through the libm model. -/
def p_dist (rsqrt : ℚ → ℚ) (a : Pt) : ℚ := rsqrt (a.x * a.x + a.y * a.y)

def p_sqr (a : Pt) : ℚ := a.x * a.x + a.y * a.y

def p_dot (a b : Pt) : ℚ := a.x * b.x + a.y * b.y

/-- `calc_power_coefficients` (cubic2quad.cpp lines 91-109), with the
`out[4]` array as a structure. -/
structure PowerCoeffs where
  a : Pt
  b : Pt
  c : Pt
  d : Pt

def calc_power_coefficients (p1 c1 c2 p2 : Pt) : PowerCoeffs :=
  ⟨p_add (p_sub p2 p1) (p_mul (p_sub c1 c2) 3),
   p_sub (p_mul (p_add p1 c2) 3) (p_mul c1 6),
   p_mul (p_sub c1 p1) 3,
   p1⟩

def calc_point (a b c d : Pt) (t : ℚ) : Pt :=
  p_add (p_mul (p_add (p_mul (p_add (p_mul a t) b) t) c) t) d

def calc_point_quad (a b c : Pt) (t : ℚ) : Pt :=
  p_add (p_mul (p_add (p_mul a t) b) t) c

/-- `calc_point_derivative` (cubic2quad.cpp lines 125-131); the `d` argument
is unused in the source (`UNUSED(d)`). -/
def calc_point_derivative (a b c d : Pt) (t : ℚ) : Pt :=
  p_add (p_mul (p_add (p_mul a (3*t)) (p_mul b 2)) t) c

/-- `quad_solve` (cubic2quad.cpp lines 133-162), returning the valid roots in
fill order. -/
def quad_solve (rsqrt : ℚ → ℚ) (a b c : ℚ) : List ℚ :=
  if ratAbs a < c2qPrecision then
    if b = 0 then [] else [-c / b]
  else
    let D := b*b - 4*a*c
    if ratAbs D < c2qPrecision then [-b / (2*a)]
    else if D < 0 then []
    else
      let DSqrt := rsqrt D
      [(-b - DSqrt) / (2*a), (-b + DSqrt) / (2*a)]

/-- `cubic_root` (cubic2quad.cpp lines 164-167). -/
def cubic_root (rcbrt : ℚ → ℚ) (x : ℚ) : ℚ :=
  if x < 0 then -(rcbrt (-x)) else rcbrt x

/-- `cubic_solve` (cubic2quad.cpp lines 169-205). -/
def cubic_solve (fns : FloatFns) (a b c d : ℚ) : List ℚ :=
  if ratAbs a < c2qPrecision then quad_solve fns.rsqrt b c d
  else
    let xn := -b / (3*a)
    let yn := ((a * xn + b) * xn + c) * xn + d
    let deltaSq := (b*b - 3*a*c) / (9*a*a)
    let hSq := 4*a*a * deltaSq^3
    let D3 := yn*yn - hSq
    if ratAbs D3 < c2qPrecision then
      let delta1 := cubic_root fns.rcbrt (yn / (2*a))
      [xn - 2*delta1, xn + delta1]
    else if D3 > 0 then
      let D3Sqrt := fns.rsqrt D3
      [xn + cubic_root fns.rcbrt ((-yn + D3Sqrt) / (2*a)) +
        cubic_root fns.rcbrt ((-yn - D3Sqrt) / (2*a))]
    else
      let theta := fns.racos (-yn / fns.rsqrt hSq) / 3
      let delta := fns.rsqrt deltaSq
      [xn + 2*delta * fns.rcos theta,
       xn + 2*delta * fns.rcos (theta + mPiDouble * 2 / 3),
       xn + 2*delta * fns.rcos (theta + mPiDouble * 4 / 3)]

/-- `min_distance_to_quad` (cubic2quad.cpp lines 207-257).  The `INFINITY`
seed of the running minimum is realized as folding `min` over the candidate
distances starting from the first one; the candidate list always contains
`t = 0` and `t = 1`, so it is never empty. -/
def min_distance_to_quad (fns : FloatFns) (point p1 c1 p2 : Pt) : ℚ :=
  let a := p_sub (p_add p1 p2) (p_mul c1 2)
  let b := p_mul (p_sub c1 p1) 2
  let c := p1
  let e3 := 2 * p_sqr a
  let e2 := 3 * p_dot a b
  let e1 := p_sqr b + 2 * p_dot a (p_sub c point)
  let e0 := p_dot (p_sub c point) b
  let roots := cubic_solve fns e3 e2 e1 e0
  let candidates :=
    roots.filter (fun r => decide (c2qPrecision < r ∧ r < 1 - c2qPrecision)) ++ [0, 1]
  let ds := candidates.map (fun t => p_dist fns.rsqrt (p_sub (calc_point_quad a b c t) point))
  ds.foldl min (ds.headD 0)

/-- `process_segment` (cubic2quad.cpp lines 259-300). -/
def process_segment (a b c d : Pt) (t1 t2 : ℚ) : QBezier :=
  let f1 := calc_point a b c d t1
  let f2 := calc_point a b c d t2
  let f1d := calc_point_derivative a b c d t1
  let f2d := calc_point_derivative a b c d t2
  let D := -f1d.x * f2d.y + f2d.x * f1d.y
  if ratAbs D < c2qPrecision then
    ⟨f1, p_div (p_add f1 f2) 2, f2⟩
  else
    ⟨f1,
     ⟨(f1d.x*(f2.y*f2d.x - f2.x*f2d.y) + f2d.x*(f1.x*f1d.y - f1.y*f1d.x)) / D,
      (f1d.y*(f2.y*f2d.x - f2.x*f2d.y) + f2d.y*(f1.x*f1d.y - f1.y*f1d.x)) / D⟩,
     f2⟩

/-- The sampling loop of `is_segment_approximation_close` (cubic2quad.cpp
lines 324-332): `for (t = tmin + dt; t < tmax - dt; t += dt)`.  With exact
arithmetic the loop body runs for `t = tmin + k*dt`, `k = 1..8` (and not at
all when `dt ≤ 0`), so the structural fuel of 10 is never exhausted. -/
def seg_close_loop (fns : FloatFns) (a b c d p1 c1 p2 : Pt)
    (tmaxMinusDt dt errorBound : ℚ) : ℕ → ℚ → Bool
  | 0, _ => true
  | fuel + 1, t =>
    if t < tmaxMinusDt then
      if errorBound < min_distance_to_quad fns (calc_point a b c d t) p1 c1 p2 then
        false
      else
        seg_close_loop fns a b c d p1 c1 p2 tmaxMinusDt dt errorBound fuel (t + dt)
    else true

/-- `is_segment_approximation_close` (cubic2quad.cpp lines 302-334). -/
def is_segment_approximation_close (fns : FloatFns) (a b c d : Pt)
    (tmin tmax : ℚ) (p1 c1 p2 : Pt) (errorBound : ℚ) : Bool :=
  let dt := (tmax - tmin) / 10
  seg_close_loop fns a b c d p1 c1 p2 (tmax - dt) dt errorBound 10 (tmin + dt)

/-- `_is_approximation_close` (cubic2quad.cpp lines 336-351). -/
def is_approximation_close_list (fns : FloatFns) (a b c d : Pt)
    (quadCurves : List QBezier) (errorBound : ℚ) : Bool :=
  let dt := 1 / (quadCurves.length : ℚ)
  quadCurves.enum.all (fun iq =>
    is_segment_approximation_close fns a b c d
      ((iq.1 : ℚ) * dt) (((iq.1 : ℚ) + 1) * dt) iq.2.p1 iq.2.c1 iq.2.p2 errorBound)

/-- `subdivide_cubic` (cubic2quad.cpp lines 357-383). -/
def subdivide_cubic (b : CBezier) (t : ℚ) : CBezier × CBezier :=
  let u := 1 - t
  let v := t
  let bx := b.p1.x*u + b.c1.x*v
  let sx := b.c1.x*u + b.c2.x*v
  let fx := b.c2.x*u + b.p2.x*v
  let cx := bx*u + sx*v
  let ex := sx*u + fx*v
  let dx := cx*u + ex*v
  let by_ := b.p1.y*u + b.c1.y*v
  let sy := b.c1.y*u + b.c2.y*v
  let fy := b.c2.y*u + b.p2.y*v
  let cy := by_*u + sy*v
  let ey := sy*u + fy*v
  let dy := cy*u + ey*v
  (⟨⟨b.p1.x, b.p1.y⟩, ⟨bx, by_⟩, ⟨cx, cy⟩, ⟨dx, dy⟩⟩,
   ⟨⟨dx, dy⟩, ⟨ex, ey⟩, ⟨fx, fy⟩, ⟨b.p2.x, b.p2.y⟩⟩)

/-- The "sort ascending" swap at the end of `solve_inflections`
(cubic2quad.cpp lines 417-421): with two kept roots out of order, swap. -/
def sort_two (l : List ℚ) : List ℚ :=
  match l with
  | [a, b] => if a > b then [b, a] else [a, b]
  | l => l

/-- `solve_inflections` (cubic2quad.cpp lines 391-424): keep the quadratic's
roots strictly inside `(PRECISION, 1 - PRECISION)`, sorted ascending. -/
def solve_inflections (rsqrt : ℚ → ℚ) (b : CBezier) : List ℚ :=
  let x1 := b.p1.x
  let y1 := b.p1.y
  let x2 := b.c1.x
  let y2 := b.c1.y
  let x3 := b.c2.x
  let y3 := b.c2.y
  let x4 := b.p2.x
  let y4 := b.p2.y
  let p := -(x4 * (y1 - 2*y2 + y3)) + x3 * (2*y1 - 3*y2 + y4)
    + x1 * (y2 - 2*y3 + y4) - x2 * (y1 - 3*y3 + 2*y4)
  let q := x4 * (y1 - y2) + 3*x3 * (-y1 + y2) + x2 * (2*y1 - 3*y3 + y4)
    - x1 * (2*y2 - 3*y3 + y4)
  let r := x3 * (y1 - y2) + x1 * (y2 - y3) + x2 * (-y1 + y3)
  let roots := quad_solve rsqrt p q r
  sort_two (roots.filter (fun t => decide (c2qPrecision < t ∧ t < 1 - c2qPrecision)))

/-- The `approximation[]` buffer contents for a given segment count `k`
(cubic2quad.cpp lines 443-446). -/
def approximation (a b c d : Pt) (k : ℕ) : List QBezier :=
  (List.range k).map (fun (i : ℕ) =>
    process_segment a b c d ((i : ℚ) / (k : ℚ)) ((i : ℚ) / (k : ℚ) + 1 / (k : ℚ)))

/-- The acceptance test of the `segmentsCount` loop of `_cubic_to_quad`
(cubic2quad.cpp lines 442-456): at `k = 1` a concave/convex mismatch rejects
unconditionally, otherwise the Hausdorff-style closeness test decides. -/
def accept_segments (fns : FloatFns) (cb : CBezier) (a b c d : Pt)
    (errorBound : ℚ) (k : ℕ) : Bool :=
  let app := approximation a b c d k
  if k = 1 ∧ (p_dot (p_sub (app.headD default).c1 cb.p1) (p_sub cb.c1 cb.p1) < 0 ∨
      p_dot (p_sub (app.headD default).c1 cb.p2) (p_sub cb.c2 cb.p2) < 0) then
    false
  else
    is_approximation_close_list fns a b c d app errorBound

/-- `_cubic_to_quad` (cubic2quad.cpp lines 435-458): the returned buffer holds
the approximation for the first accepted `segmentsCount` in 1..8; after a full
loop without acceptance, `MAX_SEGMENTS = 8` is used unconditionally. -/
def cubic_to_quad_one (fns : FloatFns) (cb : CBezier) (errorBound : ℚ) :
    List QBezier :=
  let pc := calc_power_coefficients cb.p1 cb.c1 cb.c2 cb.p2
  let k := (((List.range 8).map (· + 1)).find?
    (accept_segments fns cb pc.a pc.b pc.c pc.d errorBound)).getD 8
  approximation pc.a pc.b pc.c pc.d k

/-- The inflection-splitting loop of `cubic_to_quad` (cubic2quad.cpp lines
476-495), as structural recursion over the remaining inflection parameters. -/
def cubic_to_quad_go (fns : FloatFns) (errorBound : ℚ) :
    CBezier → ℚ → List ℚ → List QBezier
  | curve, _, [] => cubic_to_quad_one fns curve errorBound
  | curve, prevPoint, t :: rest =>
    let split := subdivide_cubic curve (1 - (1 - t) / (1 - prevPoint))
    cubic_to_quad_one fns split.1 errorBound ++
      cubic_to_quad_go fns errorBound split.2 t rest

/-- `cubic_to_quad` (cubic2quad.cpp lines 467-496). -/
def cubic_to_quad (fns : FloatFns) (cb : CBezier) (errorBound : ℚ) :
    List QBezier :=
  let inflections := solve_inflections fns.rsqrt cb
  if inflections.isEmpty then cubic_to_quad_one fns cb errorBound
  else cubic_to_quad_go fns errorBound cb 0 inflections

theorem approximation_length (a b c d : Pt) (k : ℕ) :
    (approximation a b c d k).length = k := by
  unfold approximation
  rw [List.length_map, List.length_range]

theorem cubic_to_quad_one_length (fns : FloatFns) (cb : CBezier) (e : ℚ) :
    1 ≤ (cubic_to_quad_one fns cb e).length ∧
    (cubic_to_quad_one fns cb e).length ≤ 8 := by
  simp only [cubic_to_quad_one]
  rcases hfind : (((List.range 8).map (· + 1)).find?
      (accept_segments fns cb (calc_power_coefficients cb.p1 cb.c1 cb.c2 cb.p2).a
        (calc_power_coefficients cb.p1 cb.c1 cb.c2 cb.p2).b
        (calc_power_coefficients cb.p1 cb.c1 cb.c2 cb.p2).c
        (calc_power_coefficients cb.p1 cb.c1 cb.c2 cb.p2).d e)) with _ | k0
  · simp [hfind, approximation_length]
  · have hmem := List.mem_of_find?_eq_some hfind
    simp only [List.mem_map, List.mem_range] at hmem
    obtain ⟨j, hj, rfl⟩ := hmem
    simp [hfind, approximation_length]
    omega

theorem quad_solve_length (rsqrt : ℚ → ℚ) (a b c : ℚ) :
    (quad_solve rsqrt a b c).length ≤ 2 := by
  simp only [quad_solve]
  split_ifs <;> simp

theorem sort_two_length (l : List ℚ) : (sort_two l).length = l.length := by
  rcases l with _ | ⟨a, _ | ⟨b, _ | ⟨c, t⟩⟩⟩
  · rfl
  · rfl
  · simp only [sort_two]
    split <;> rfl
  · rfl

theorem sort_two_mem (l : List ℚ) (t : ℚ) (h : t ∈ sort_two l) : t ∈ l := by
  rcases l with _ | ⟨a, _ | ⟨b, _ | ⟨c, r⟩⟩⟩
  · exact h
  · exact h
  · simp only [sort_two] at h
    revert h
    split <;> intro h <;> simp only [List.mem_cons, List.mem_singleton] at h ⊢ <;> tauto
  · exact h

theorem solve_inflections_bounds (rsqrt : ℚ → ℚ) (cb : CBezier) :
    (solve_inflections rsqrt cb).length ≤ 2 ∧
    ∀ t ∈ solve_inflections rsqrt cb, 0 < t ∧ t < 1 := by
  have hform : ∃ p q r : ℚ, solve_inflections rsqrt cb =
      sort_two ((quad_solve rsqrt p q r).filter
        (fun t => decide (c2qPrecision < t ∧ t < 1 - c2qPrecision))) :=
    ⟨_, _, _, rfl⟩
  obtain ⟨p, q, r, hpq⟩ := hform
  rw [hpq]
  constructor
  · rw [sort_two_length]
    exact le_trans (List.length_filter_le _ _) (quad_solve_length rsqrt p q r)
  · intro t ht
    have h2 := List.of_mem_filter (sort_two_mem _ t ht)
    simp only [decide_eq_true_eq, c2qPrecision] at h2
    constructor <;> [linarith [h2.1]; linarith [h2.2]]

theorem cubic_to_quad_go_length (fns : FloatFns) (e : ℚ) :
    ∀ (rest : List ℚ) (curve : CBezier) (prev : ℚ),
      1 ≤ (cubic_to_quad_go fns e curve prev rest).length ∧
      (cubic_to_quad_go fns e curve prev rest).length ≤ 8 * (rest.length + 1) := by
  intro rest
  induction rest with
  | nil =>
    intro curve prev
    simpa [cubic_to_quad_go] using cubic_to_quad_one_length fns curve e
  | cons t r ih =>
    intro curve prev
    simp only [cubic_to_quad_go, List.length_append, List.length_cons]
    obtain ⟨h1, h2⟩ := cubic_to_quad_one_length fns
      (subdivide_cubic curve (1 - (1 - t) / (1 - prev))).1 e
    obtain ⟨h3, h4⟩ := ih (subdivide_cubic curve (1 - (1 - t) / (1 - prev))).2 t
    constructor
    · omega
    · omega

/-- C6: for every input cubic and error bound (and any values of the libm
routines), `cubic_to_quad` returns between 1 and 24 quadratics: the cubic is
split at up to two inflection parameters, each strictly inside `(0, 1)`, into
at most three sub-cubics, and each sub-cubic is approximated by
`_cubic_to_quad` with between 1 and 8 quadratics (the `k = 8` attempt is kept
unconditionally when the loop finds no accepted count). -/
theorem cubic_to_quad_count (fns : FloatFns) (cb : CBezier) (e : ℚ) :
    (1 ≤ (cubic_to_quad fns cb e).length ∧ (cubic_to_quad fns cb e).length ≤ 24) ∧
    ((solve_inflections fns.rsqrt cb).length ≤ 2 ∧
      ∀ t ∈ solve_inflections fns.rsqrt cb, 0 < t ∧ t < 1) ∧
    (1 ≤ (cubic_to_quad_one fns cb e).length ∧
      (cubic_to_quad_one fns cb e).length ≤ 8) := by
  refine ⟨?_, solve_inflections_bounds fns.rsqrt cb, cubic_to_quad_one_length fns cb e⟩
  simp only [cubic_to_quad]
  split
  · obtain ⟨h1, h2⟩ := cubic_to_quad_one_length fns cb e
    exact ⟨h1, by omega⟩
  · obtain ⟨h1, h2⟩ := cubic_to_quad_go_length fns e (solve_inflections fns.rsqrt cb) cb 0
    have h3 := (solve_inflections_bounds fns.rsqrt cb).1
    exact ⟨h1, by omega⟩

/- ===================================================================
   lib/outline.cpp.  The FreeType outline object (points, control box,
   orientation, and the decompose walk) is external input, modelled as
   explicit data; the walk is the event list FT_Outline_Decompose
   delivers to the callbacks.
   =================================================================== -/

/-- One callback event of the `FT_Outline_Decompose` walk. -/
inductive OutlineEvent
  | moveTo (dst : ℤ × ℤ)
  | lineTo (dst : ℤ × ℤ)
  | conicTo (c1 dst : ℤ × ℤ)
  | cubicTo (c1 c2 dst : ℤ × ℤ)
deriving DecidableEq, Repr

/-- `FT_Outline_Get_Orientation` results used by the sources. -/
inductive FTOrientation
  | fillRight
  | fillLeft
  | noneOrient
deriving DecidableEq, Repr

/-- The data a loaded FreeType outline exposes: point count and points (font
units), control box, orientation, the decompose walk, and whether
`FT_Outline_Decompose` succeeds. -/
structure FTOutline where
  nPoints : ℤ
  points : List (ℤ × ℤ)
  xMin : ℤ
  yMin : ℤ
  xMax : ℤ
  yMax : ℤ
  orientation : FTOrientation
  events : List OutlineEvent
  decomposeOk : Bool
deriving DecidableEq, Repr

/-- `vec2bezier` (outline.cpp lines 13-20): arguments in `(e0, c, e1)` order. -/
def vec2bezier (e0 c e1 : ℤ × ℤ) : Bezier2Q :=
  ⟨⟨(e0.1 : ℚ), (e0.2 : ℚ)⟩, ⟨(e1.1 : ℚ), (e1.2 : ℚ)⟩, ⟨(c.1 : ℚ), (c.2 : ℚ)⟩⟩

/-- One decompose callback of outline.cpp (lines 22-71), acting on the
`(prev, curves)` state: lines emit `vec2bezier(prev, prev, to)` (degenerate
control `c = e0`), conics emit `vec2bezier(prev, c1, to)`, cubics emit the
cubic2quad approximation at the given resolution. -/
def decomposeStep (fns : FloatFns) (c2qResolution : ℚ)
    (st : (ℤ × ℤ) × List Bezier2Q) (ev : OutlineEvent) : (ℤ × ℤ) × List Bezier2Q :=
  match ev with
  | .moveTo dst => (dst, st.2)
  | .lineTo dst => (dst, st.2 ++ [vec2bezier st.1 st.1 dst])
  | .conicTo c1 dst => (dst, st.2 ++ [vec2bezier st.1 c1 dst])
  | .cubicTo c1 c2 dst =>
    let quads := cubic_to_quad fns
      ⟨⟨(st.1.1 : ℚ), (st.1.2 : ℚ)⟩, ⟨(c1.1 : ℚ), (c1.2 : ℚ)⟩,
       ⟨(c2.1 : ℚ), (c2.2 : ℚ)⟩, ⟨(dst.1 : ℚ), (dst.2 : ℚ)⟩⟩ c2qResolution
    (dst, st.2 ++ quads.map (fun q =>
      (⟨⟨q.p1.x, q.p1.y⟩, ⟨q.p2.x, q.p2.y⟩, ⟨q.c1.x, q.c1.y⟩⟩ : Bezier2Q)))

/-- `decompose` (outline.cpp lines 75-97): walk the outline; a failing walk
yields the empty list. -/
def decompose (fns : FloatFns) (o : FTOutline) (c2qResolution : ℚ) :
    List Bezier2Q :=
  if o.decomposeOk then
    (o.events.foldl (decomposeStep fns c2qResolution) ((0, 0), [])).2
  else []

/-- `translate_beziers` (outline.cpp lines 100-110). -/
def translate_beziers (beziers : List Bezier2Q) (origin : Vec2Q) : List Bezier2Q :=
  beziers.map (fun b =>
    ⟨⟨b.e0.x - origin.x, b.e0.y - origin.y⟩,
     ⟨b.e1.x - origin.x, b.e1.y - origin.y⟩,
     ⟨b.c.x - origin.x, b.c.y - origin.y⟩⟩)

/-- `flip_beziers` (outline.cpp lines 113-118): `swap(e0, e1)` on every
curve. -/
def flip_beziers (beziers : List Bezier2Q) : List Bezier2Q :=
  beziers.map (fun b => ⟨b.e1, b.e0, b.c⟩)

/-- The exact value of the binary64 constant `0.05`. -/
def c05Double : ℚ := 3602879701896397 / 72057594037927936

/-- `GetBeziersForOutline` (outline.cpp lines 122-151).  The resolution is
`std::max((int)(((width + height) / 2) * 0.05), 1)` with C integer division
by 2 and float truncation. -/
def getBeziersForOutline (fns : FloatFns) (o : FTOutline) : List Bezier2Q :=
  if o.nPoints ≤ 0 then []
  else
    let width := o.xMax - o.xMin
    let height := o.yMax - o.yMin
    let c2qResolution : ℤ := max (ratTrunc ((((width + height).tdiv 2 : ℤ) : ℚ) * c05Double)) 1
    let beziers := decompose fns o (c2qResolution : ℚ)
    let beziers :=
      if o.xMin ≠ 0 ∨ o.yMin ≠ 0 then
        translate_beziers beziers ⟨(o.xMin : ℚ), (o.yMin : ℚ)⟩
      else beziers
    if o.orientation = FTOrientation.fillLeft then flip_beziers beziers
    else beziers

/-- Libm stand-ins for runs that never reach a cubic. -/
def fnsZero : FloatFns := ⟨fun _ => 0, fun _ => 0, fun _ => 0, fun _ => 0⟩

/-- The counterexample outline: a single straight edge in a fill-left
(counterclockwise) outline. -/
def c7Outline : FTOutline :=
  { nPoints := 2, points := [(0, 0), (10, 0)], xMin := 0, yMin := 0,
    xMax := 10, yMax := 0, orientation := FTOrientation.fillLeft,
    events := [OutlineEvent.moveTo (0, 0), OutlineEvent.lineTo (10, 0)],
    decomposeOk := true }

/-- C7 counterexample: for a fill-left outline made of one straight edge, the
returned curve has been reversed by `flip_beziers`, so its control point
equals its second endpoint `e1 = (0,0)`, not its first endpoint
`e0 = (10,0)`. -/
theorem getBeziersForOutline_flip_counterexample :
    getBeziersForOutline fnsZero c7Outline = [⟨⟨10, 0⟩, ⟨0, 0⟩, ⟨0, 0⟩⟩] ∧
    ((getBeziersForOutline fnsZero c7Outline).headD default).c ≠
      ((getBeziersForOutline fnsZero c7Outline).headD default).e0 ∧
    ((getBeziersForOutline fnsZero c7Outline).headD default).c =
      ((getBeziersForOutline fnsZero c7Outline).headD default).e1 := by
  have h : getBeziersForOutline fnsZero c7Outline = [⟨⟨10, 0⟩, ⟨0, 0⟩, ⟨0, 0⟩⟩] := by
    norm_num [getBeziersForOutline, c7Outline, decompose, decomposeStep, vec2bezier,
      flip_beziers, translate_beziers]
  refine ⟨h, ?_, ?_⟩ <;> rw [h] <;> norm_num

/-- Recognizes the walk events that emit straight edges or nothing. -/
def onlyLines : OutlineEvent → Bool
  | OutlineEvent.moveTo _ => true
  | OutlineEvent.lineTo _ => true
  | _ => false

theorem decompose_fold_c_eq_e0 (fns : FloatFns) (r : ℚ) :
    ∀ (l : List OutlineEvent) (st : (ℤ × ℤ) × List Bezier2Q),
      (∀ e ∈ l, onlyLines e = true) → (∀ b ∈ st.2, b.c = b.e0) →
      ∀ b ∈ (l.foldl (decomposeStep fns r) st).2, b.c = b.e0 := by
  intro l
  induction l with
  | nil => intro st _ hst b hb; exact hst b hb
  | cons e t ih =>
    intro st hl hst b hb
    simp only [List.foldl_cons] at hb
    refine ih (decomposeStep fns r st e) (fun x hx => hl x (List.mem_cons_of_mem e hx))
      ?_ b hb
    intro b2 hb2
    have he := hl e (List.mem_cons_self e t)
    match e, he with
    | OutlineEvent.moveTo dst, _ => exact hst b2 hb2
    | OutlineEvent.lineTo dst, _ =>
      simp only [decomposeStep, List.mem_append, List.mem_singleton] at hb2
      rcases hb2 with hb2 | hb2
      · exact hst b2 hb2
      · subst hb2; rfl

theorem decompose_c_eq_e0 (fns : FloatFns) (o : FTOutline) (r : ℚ)
    (h : ∀ e ∈ o.events, onlyLines e = true) :
    ∀ b ∈ decompose fns o r, b.c = b.e0 := by
  unfold decompose
  split
  · exact decompose_fold_c_eq_e0 fns r o.events ((0, 0), []) h (by simp)
  · simp

/-- C7 amended: every straight edge is emitted as a degenerate quadratic with
`c = e0`; when the outline is fill-left, `flip_beziers` swaps `e0` and `e1`
afterwards, so in the returned list a straight edge's control point equals its
second endpoint `e1` (the curve is still degenerate, but the claimed `c = e0`
only holds in the non-flipped case). -/
theorem getBeziersForOutline_line_control (fns : FloatFns) (o : FTOutline)
    (h : ∀ e ∈ o.events, onlyLines e = true) :
    ∀ b ∈ getBeziersForOutline fns o,
      (o.orientation = FTOrientation.fillLeft → b.c = b.e1) ∧
      (o.orientation ≠ FTOrientation.fillLeft → b.c = b.e0) := by
  intro b hb
  simp only [getBeziersForOutline] at hb
  by_cases hnp : o.nPoints ≤ 0
  · simp [hnp] at hb
  · rw [if_neg hnp] at hb
    have htrans : ∀ r : ℚ, ∀ b2 ∈ (if o.xMin ≠ 0 ∨ o.yMin ≠ 0 then
        translate_beziers (decompose fns o r) ⟨(o.xMin : ℚ), (o.yMin : ℚ)⟩
        else decompose fns o r), b2.c = b2.e0 := by
      intro r b2 hb2
      split at hb2
      · simp only [translate_beziers, List.mem_map] at hb2
        obtain ⟨b3, hb3, rfl⟩ := hb2
        have := decompose_c_eq_e0 fns o r h b3 hb3
        simp [this]
      · exact decompose_c_eq_e0 fns o r h b2 hb2
    by_cases hor : o.orientation = FTOrientation.fillLeft
    · rw [if_pos hor] at hb
      simp only [flip_beziers, List.mem_map] at hb
      obtain ⟨b3, hb3, rfl⟩ := hb
      exact ⟨fun _ => htrans _ b3 hb3, fun hno => absurd hor hno⟩
    · rw [if_neg hor] at hb
      exact ⟨fun hyes => absurd hyes hor, fun _ => htrans _ b hb⟩

/-- Witness for C7 amended at the fill-left single-edge outline. -/
theorem getBeziersForOutline_line_control_witness :
    (∀ e ∈ c7Outline.events, onlyLines e = true) ∧
    (∀ b ∈ getBeziersForOutline fnsZero c7Outline,
      (c7Outline.orientation = FTOrientation.fillLeft → b.c = b.e1) ∧
      (c7Outline.orientation ≠ FTOrientation.fillLeft → b.c = b.e0)) :=
  ⟨by decide, getBeziersForOutline_line_control fnsZero c7Outline (by decide)⟩

/- ===================================================================
   GridGlyph.cpp lines 78-130 (find_cells_mids_inside), the GridGlyph
   constructor, and VGridAtlas::WriteVGridAt over a byte-function atlas.
   =================================================================== -/

/-- `std::round`: round half away from zero. -/
def croundQ (q : ℚ) : ℤ := if q < 0 then -⌊-q + 1/2⌋ else ⌊q + 1/2⌋

/-- The sorted, duplicate-free intersection set of one row's horizontal
midpoint line (GridGlyph.cpp lines 91-102), mirroring `std::set<float>`
iteration order. -/
def rowIntersections (rsqrt : ℚ → ℚ) (beziers : List Bezier2Q) (size : Vec2Q)
    (gw gh : ℕ) (y : ℕ) : List ℚ :=
  let yMid := (y : ℚ) + 1/2
  ((beziers.flatMap (fun b =>
    (intersectHorz rsqrt b (yMid * size.y / (gh : ℚ))).map
      (fun ix => ix * (gw : ℚ) / size.x))).toFinset).sort (· ≤ ·)

/-- One step of the parity walk over a row's sorted intersections
(GridGlyph.cpp lines 108-126): on an inside-to-outside toggle, mark every
cell from `clamp(round(start), 0, gridWidth)` up to (excluding)
`clamp(round(end), 0, gridWidth)`. -/
def midRowFold (gw : ℕ) (y : ℕ) (st : Bool × ℚ × List Bool) (endVal : ℚ) :
    Bool × ℚ × List Bool :=
  let mids :=
    if st.1 then
      let startCell := clampZ (croundQ st.2.1) 0 (gw : ℤ)
      let endCell := clampZ (croundQ endVal) 0 (gw : ℤ)
      (List.range (endCell - startCell).toNat).foldl
        (fun m k => m.set (y * gw + (startCell.toNat + k)) true) st.2.2
    else st.2.2
  (!st.1, endVal, mids)

/-- `find_cells_mids_inside` (GridGlyph.cpp lines 78-130).  The `outside`
toggle starts `false`, i.e. the walk begins outside the glyph; `start`
begins at 0. -/
def findCellsMidsInside (rsqrt : ℚ → ℚ) (beziers : List Bezier2Q)
    (size : Vec2Q) (gw gh : ℕ) : List Bool :=
  (List.range gh).foldl
    (fun mids y =>
      ((rowIntersections rsqrt beziers size gw gh y).foldl
        (midRowFold gw y) (false, 0, mids)).2.2)
    (List.replicate (gw * gh) false)

/-- `GridGlyph` (GridGlyph.hpp / GridGlyph.cpp lines 132-143). -/
structure GridGlyphM where
  cellBeziers : List (Finset ℕ)
  cellMids : List Bool
  width : ℕ
  height : ℕ

/-- The `GridGlyph` constructor. -/
def mkGridGlyph (rsqrt : ℚ → ℚ) (beziers : List Bezier2Q) (size : Vec2Q)
    (gw gh : ℕ) : GridGlyphM :=
  ⟨findCellsIntersections rsqrt beziers size gw gh,
   findCellsMidsInside rsqrt beziers size gw gh, gw, gh⟩

/-- Writing one encoded texel's 4 bytes at a byte offset of the atlas
function. -/
def texelWriteAt (data : ℕ → ℕ) (base : ℕ) (t : Texel) : ℕ → ℕ :=
  fun j =>
    if j = base then t.b0
    else if j = base + 1 then t.b1
    else if j = base + 2 then t.b2
    else if j = base + 3 then t.b3
    else data j

/-- `VGridAtlas::WriteVGridAt` (GridGlyph.cpp lines 157-172) over a byte
function, with `depth = kAtlasChannels = 4`: write every cell's texel at
`xy2i(atX+x, atY+y, width) * depth`. -/
def writeVGridAt (data : ℕ → ℕ) (grid : GridGlyphM) (atX atY W : ℕ) : ℕ → ℕ :=
  (List.range grid.height).foldl (fun d y =>
    (List.range grid.width).foldl (fun d2 x =>
      let cellIdx := y * grid.width + x
      let S := (grid.cellBeziers.getD cellIdx ∅).sort (· ≤ ·)
      let m := grid.cellMids.getD cellIdx false
      texelWriteAt d2 (((atY + y) * W + (atX + x)) * 4) (writeVGridCellAt S m)) d)
    data

/-- The `assert` conditions at the top of `VGridAtlas::WriteVGridAt`
(GridGlyph.cpp lines 161-162): the tile must lie inside the atlas. -/
def writeVGridAtAssertOk (grid : GridGlyphM) (atX atY W H : ℕ) : Prop :=
  atX + grid.width ≤ W ∧ atY + grid.height ≤ H

/- ===================================================================
   lib/gllabel.cpp: GetCurvesForOutline (lines 400-511) and
   GLFontManager::GetGlyphForCodepoint (lines 600-708).
   The FreeType face is external: it is modelled as a load oracle
   giving, per codepoint, the glyph metrics and outline that
   FT_Load_Glyph + the glyph slot would provide, or `none` when
   FT_Load_Glyph fails.
   =================================================================== -/

/-- `face->glyph->metrics` fields used by the manager (font units). -/
structure GlyphMetrics where
  width : ℤ
  height : ℤ
  horiBearingX : ℤ
  horiBearingY : ℤ
  horiAdvance : ℤ
deriving DecidableEq, Repr

/-- One decompose callback of `GetCurvesForOutline` (gllabel.cpp lines
429-505): every point is shifted by the outline minimum, and the emitted
curve is reversed in place when the outline is not clockwise.  The vector
`push_back` sequence is accumulated in reverse (constant-time push) and the
caller reverses it at the end. -/
def getCurvesStep (fns : FloatFns) (metricsX metricsY : ℤ) (clockwise : Bool)
    (st : (ℤ × ℤ) × List Bezier2Q) (ev : OutlineEvent) :
    (ℤ × ℤ) × List Bezier2Q :=
  match ev with
  | OutlineEvent.moveTo dst => (dst, st.2)
  | OutlineEvent.lineTo dst =>
    let bgn : Vec2Q := ⟨((st.1.1 - metricsX : ℤ) : ℚ), ((st.1.2 - metricsY : ℤ) : ℚ)⟩
    let fin : Vec2Q := ⟨((dst.1 - metricsX : ℤ) : ℚ), ((dst.2 - metricsY : ℤ) : ℚ)⟩
    (dst, (if clockwise then (⟨bgn, fin, bgn⟩ : Bezier2Q) else ⟨fin, bgn, fin⟩) :: st.2)
  | OutlineEvent.conicTo c1 dst =>
    let bgn : Vec2Q := ⟨((st.1.1 - metricsX : ℤ) : ℚ), ((st.1.2 - metricsY : ℤ) : ℚ)⟩
    let ctl : Vec2Q := ⟨((c1.1 - metricsX : ℤ) : ℚ), ((c1.2 - metricsY : ℤ) : ℚ)⟩
    let fin : Vec2Q := ⟨((dst.1 - metricsX : ℤ) : ℚ), ((dst.2 - metricsY : ℤ) : ℚ)⟩
    (dst, (if clockwise then (⟨bgn, fin, ctl⟩ : Bezier2Q) else ⟨fin, bgn, ctl⟩) :: st.2)
  | OutlineEvent.cubicTo c1 c2 dst =>
    let quads := cubic_to_quad fns
      ⟨⟨((st.1.1 - metricsX : ℤ) : ℚ), ((st.1.2 - metricsY : ℤ) : ℚ)⟩,
       ⟨((c1.1 - metricsX : ℤ) : ℚ), ((c1.2 - metricsY : ℤ) : ℚ)⟩,
       ⟨((c2.1 - metricsX : ℤ) : ℚ), ((c2.2 - metricsY : ℤ) : ℚ)⟩,
       ⟨((dst.1 - metricsX : ℤ) : ℚ), ((dst.2 - metricsY : ℤ) : ℚ)⟩⟩ 5
    (dst, (quads.map (fun q =>
      if clockwise then (⟨⟨q.p1.x, q.p1.y⟩, ⟨q.p2.x, q.p2.y⟩, ⟨q.c1.x, q.c1.y⟩⟩ : Bezier2Q)
      else ⟨⟨q.p2.x, q.p2.y⟩, ⟨q.p1.x, q.p1.y⟩, ⟨q.c1.x, q.c1.y⟩⟩)).reverse ++ st.2)

/-- `GetCurvesForOutline` (gllabel.cpp lines 400-511): find the outline
minimum, walk the outline, and return empty on zero points or a failing
walk.  The reversed accumulator is put back in emission order here. -/
def getCurvesForOutline (fns : FloatFns) (o : FTOutline) : List Bezier2Q :=
  if o.nPoints ≤ 0 then []
  else
    let p0 := o.points.headD (0, 0)
    let metricsX := ((o.points.drop 1).map Prod.fst).foldl min p0.1
    let metricsY := ((o.points.drop 1).map Prod.snd).foldl min p0.2
    let clockwise := decide (o.orientation = FTOrientation.fillRight)
    if o.decomposeOk then
      ((o.events.foldl (getCurvesStep fns metricsX metricsY clockwise)
        ((0, 0), [])).2).reverse
    else []

def kGridMaxSize : ℕ := 20

def kGridAtlasSize : ℕ := 256

def kBezierAtlasSize : ℕ := 256

def kAtlasChannels : ℕ := 4

/-- `GLFontManager::AtlasGroup`: the glyph-data buffer is viewed through the
`uint16_t` pointer the writer uses (one entry per 16-bit word), and the grid
atlas as bytes. -/
structure AtlasGroup where
  glyphDataBuf : ℕ → ℕ
  gridAtlas : ℕ → ℕ
  glyphDataBufOffset : ℕ
  nextGridPosX : ℕ
  nextGridPosY : ℕ
  full : Bool
  uploaded : Bool

/-- A freshly created atlas group (gllabel.cpp lines 359-362): zeroed
buffers, cursors at the origin, `uploaded = true`. -/
def emptyAtlasGroup : AtlasGroup := ⟨fun _ => 0, fun _ => 0, 0, 0, 0, false, true⟩

instance : Inhabited AtlasGroup := ⟨emptyAtlasGroup⟩

/-- `GLFontManager::Glyph`: `bezierAtlasPosX` is the data offset in pixels,
`bezierAtlasPosY` the atlas group index with sentinel −1. -/
structure Glyph where
  bezierAtlasPosX : ℕ
  bezierAtlasPosY : ℤ
  sizeW : ℤ
  sizeH : ℤ
  offsetX : ℤ
  offsetY : ℤ
  advance : ℤ
deriving DecidableEq, Repr

instance : Inhabited Glyph := ⟨⟨0, 0, 0, 0, 0, 0, 0⟩⟩

/-- The manager state: the atlas group list and the glyph cache keyed by
`(face, codepoint)`.  The nested `std::map` is modelled as an association
list where the most recent insertion shadows older ones. -/
structure FontManagerM where
  atlases : List AtlasGroup
  glyphs : List ((ℕ × ℕ) × Glyph)

def cacheFind : List ((ℕ × ℕ) × Glyph) → ℕ × ℕ → Option Glyph
  | [], _ => none
  | (k, g) :: rest, key => if k = key then some g else cacheFind rest key

/-- Apply a mutation through the `AtlasGroup *` pointer, which always points
at the last element of `this->atlases`. -/
def updateLast : List AtlasGroup → (AtlasGroup → AtlasGroup) → List AtlasGroup
  | [], _ => []
  | [a], f => [f a]
  | a :: rest, f => a :: updateLast rest f

def lastAtlas (mgr : FontManagerM) : AtlasGroup :=
  mgr.atlases.getLast?.getD emptyAtlasGroup

/-- `GLFontManager::GetOpenAtlasGroup` (gllabel.cpp lines 356-384): push a
fresh group when there is none or the last one is full, and return (a pointer
to) the last group. -/
def getOpenAtlasGroupM (mgr : FontManagerM) : FontManagerM :=
  if mgr.atlases.length = 0 ∨ (lastAtlas mgr).full = true then
    { mgr with atlases := mgr.atlases ++ [emptyAtlasGroup] }
  else mgr

/-- Write a run of consecutive 16-bit words starting at word index `base`. -/
def writeWordsAt (buf : ℕ → ℕ) (base : ℕ) (ws : List ℕ) : ℕ → ℕ :=
  fun j => if base ≤ j ∧ j - base < ws.length then ws.getD (j - base) 0 else buf j

/-- `write_glyph_data_to_buffer` (gllabel.cpp lines 579-598): the 4-word
header `(gridX, gridY, gridWidth, gridHeight)` followed by 6 words per
curve, written contiguously through the `uint16_t` view. -/
def write_glyph_data_to_buffer (buf : ℕ → ℕ) (at16 : ℕ) (curves : List Bezier2Q)
    (size : Vec2Q) (gridX gridY gridW gridH : ℕ) : ℕ → ℕ :=
  writeWordsAt buf at16
    ([gridX, gridY, gridW, gridH] ++
      curves.flatMap (fun b => writeBezierToBuffer b size.x size.y))

/-- Marking the current atlas group full (gllabel.cpp lines 654-655 and
664-665). -/
def markFullGroup (a : AtlasGroup) : AtlasGroup :=
  { a with full := true, uploaded := false }

/-- The grid-cursor wrap (gllabel.cpp lines 661-662): next row, x back to 0. -/
def wrapGridRow (a : AtlasGroup) : AtlasGroup :=
  { a with nextGridPosY := a.nextGridPosY + kGridMaxSize, nextGridPosX := 0 }

/-- The state the current atlas group ends in after a successful placement
(gllabel.cpp lines 670-702): both buffers written, the data offset advanced
by the record length, the grid cursor advanced by one tile. -/
def commitGlyphWrites (newBuf newGrid : ℕ → ℕ) (bpl : ℕ) (a2 : AtlasGroup) :
    AtlasGroup :=
  { a2 with
    glyphDataBuf := newBuf
    gridAtlas := newGrid
    glyphDataBufOffset := a2.glyphDataBufOffset + bpl
    nextGridPosX := a2.nextGridPosX + kGridMaxSize
    uploaded := false }

/-- `GLFontManager::GetGlyphForCodepoint` (gllabel.cpp lines 600-708). -/
def getGlyphForCodepoint (fns : FloatFns)
    (load : ℕ → Option (GlyphMetrics × FTOutline)) (mgr : FontManagerM)
    (faceId point : ℕ) : Option Glyph × FontManagerM :=
  match cacheFind mgr.glyphs (faceId, point) with
  | some g => (some g, mgr)
  | none =>
    let mgr1 := getOpenAtlasGroupM mgr
    match load point with
    | none => (none, mgr1)
    | some lg =>
      let metrics := lg.1
      let glyphWidth := metrics.width
      let glyphHeight := metrics.height
      let curves := getCurvesForOutline fns lg.2
      let grid := mkGridGlyph fns.rsqrt curves
        ⟨(glyphWidth : ℚ), (glyphHeight : ℚ)⟩ kGridMaxSize kGridMaxSize
      let bezierPixelLength := (2 + curves.length * 3) % 65536
      let tooManyCurves :=
        decide (bezierPixelLength > kBezierAtlasSize * kBezierAtlasSize)
      if curves.length = 0 ∨ tooManyCurves = true then
        let glyph : Glyph := ⟨0, -1, glyphWidth, glyphHeight,
          metrics.horiBearingX, metrics.horiBearingY - glyphHeight,
          metrics.horiAdvance⟩
        (some glyph, { mgr1 with glyphs := ((faceId, point), glyph) :: mgr1.glyphs })
      else
        let mgr2 :=
          if (lastAtlas mgr1).glyphDataBufOffset + bezierPixelLength >
              kBezierAtlasSize * kBezierAtlasSize then
            getOpenAtlasGroupM
              { mgr1 with atlases := updateLast mgr1.atlases markFullGroup }
          else mgr1
        let mgr3 :=
          if (lastAtlas mgr2).nextGridPosX + kGridMaxSize > kGridAtlasSize then
            let mgrW :=
              { mgr2 with atlases := updateLast mgr2.atlases wrapGridRow }
            if (lastAtlas mgrW).nextGridPosY ≥ kGridAtlasSize then
              getOpenAtlasGroupM
                { mgrW with atlases := updateLast mgrW.atlases markFullGroup }
            else mgrW
          else mgr2
        let a := lastAtlas mgr3
        let newBuf := write_glyph_data_to_buffer a.glyphDataBuf
          (a.glyphDataBufOffset * 2) curves ⟨(glyphWidth : ℚ), (glyphHeight : ℚ)⟩
          a.nextGridPosX a.nextGridPosY kGridMaxSize kGridMaxSize
        let newGrid := writeVGridAt a.gridAtlas grid a.nextGridPosX a.nextGridPosY
          kGridAtlasSize
        let glyph : Glyph := ⟨a.glyphDataBufOffset, (mgr3.atlases.length : ℤ) - 1,
          glyphWidth, glyphHeight, metrics.horiBearingX,
          metrics.horiBearingY - glyphHeight, metrics.horiAdvance⟩
        let mgr4 : FontManagerM :=
          { atlases := updateLast mgr3.atlases
              (commitGlyphWrites newBuf newGrid bezierPixelLength),
            glyphs := ((faceId, point), glyph) :: mgr3.glyphs }
        (some glyph, mgr4)

theorem getOpen_glyphs (mgr : FontManagerM) :
    (getOpenAtlasGroupM mgr).glyphs = mgr.glyphs := by
  unfold getOpenAtlasGroupM
  split <;> rfl

theorem getCurvesForOutline_nil (fns : FloatFns) (o : FTOutline)
    (h : o.nPoints ≤ 0) : getCurvesForOutline fns o = [] := by
  unfold getCurvesForOutline
  rw [if_pos h]

/-- C3 counterexample: when the font engine fails to load the glyph,
`GetGlyphForCodepoint` returns a null pointer (modelled as `none`), not a
glyph record. -/
theorem getGlyphForCodepoint_returns_null :
    (getGlyphForCodepoint fnsZero (fun _ => none) ⟨[], []⟩ 0 65).fst = none := by
  rfl

/-- C3 amended: whenever the font engine loads the glyph (`load` succeeds),
`get_glyph` returns a record — every downstream error (degenerate outline,
too many curves, cell overflow, group rollover) is recovered locally — and
for a codepoint with no outline (zero points, e.g. a missing glyph rendered
through the `.notdef` slot, or whitespace) the record is the empty/sentinel
form with group index −1, the metric sizes, and the advance intact.  A
failing `FT_Load_Glyph`, however, returns null (see the counterexample), so
"always returns a record" holds only when the load succeeds. -/
theorem getGlyphForCodepoint_total_on_load (fns : FloatFns)
    (load : ℕ → Option (GlyphMetrics × FTOutline)) (mgr : FontManagerM)
    (faceId point : ℕ) (lg : GlyphMetrics × FTOutline)
    (hload : load point = some lg) :
    ((getGlyphForCodepoint fns load mgr faceId point).fst).isSome = true ∧
    (cacheFind mgr.glyphs (faceId, point) = none → lg.2.nPoints ≤ 0 →
      (getGlyphForCodepoint fns load mgr faceId point).fst =
        some ⟨0, -1, lg.1.width, lg.1.height, lg.1.horiBearingX,
          lg.1.horiBearingY - lg.1.height, lg.1.horiAdvance⟩) := by
  rcases hcache : cacheFind mgr.glyphs (faceId, point) with _ | g
  · constructor
    · simp only [getGlyphForCodepoint, hcache, hload]
      split <;> simp
    · intro _ hnp
      have hcur : getCurvesForOutline fns lg.2 = [] :=
        getCurvesForOutline_nil fns lg.2 hnp
      simp [getGlyphForCodepoint, hcache, hload, hcur]
  · constructor
    · simp [getGlyphForCodepoint, hcache]
    · intro hnone
      exact absurd hnone (by simp)

/-- A metrics record and an outline with no points, for witnesses. -/
def metricsW : GlyphMetrics := ⟨3, 4, 1, 2, 7⟩

def emptyOutline : FTOutline :=
  ⟨0, [], 0, 0, 0, 0, FTOrientation.noneOrient, [], true⟩

/-- Witness for C3 amended: a load oracle that always yields a point-free
outline; the empty glyph record comes back. -/
theorem getGlyphForCodepoint_total_on_load_witness :
    ((fun _ : ℕ => some (metricsW, emptyOutline)) 65 = some (metricsW, emptyOutline)) ∧
    (((getGlyphForCodepoint fnsZero (fun _ => some (metricsW, emptyOutline))
        ⟨[], []⟩ 0 65).fst).isSome = true ∧
    (cacheFind (⟨[], []⟩ : FontManagerM).glyphs (0, 65) = none →
      (metricsW, emptyOutline).2.nPoints ≤ 0 →
      (getGlyphForCodepoint fnsZero (fun _ => some (metricsW, emptyOutline))
        ⟨[], []⟩ 0 65).fst =
        some ⟨0, -1, (metricsW, emptyOutline).1.width,
          (metricsW, emptyOutline).1.height,
          (metricsW, emptyOutline).1.horiBearingX,
          (metricsW, emptyOutline).1.horiBearingY - (metricsW, emptyOutline).1.height,
          (metricsW, emptyOutline).1.horiAdvance⟩)) :=
  ⟨rfl, getGlyphForCodepoint_total_on_load fnsZero _ ⟨[], []⟩ 0 65
    (metricsW, emptyOutline) rfl⟩

/-- C10: a failing glyph load returns null, leaves the glyph cache untouched
and every existing atlas group's buffers and cursors unchanged (at most a
fresh empty group is appended by `GetOpenAtlasGroup`), so a repeat call with
the same pair recomputes — and fails — again rather than returning a cached
failure. -/
theorem getGlyphForCodepoint_load_failure_stateless (fns : FloatFns)
    (load : ℕ → Option (GlyphMetrics × FTOutline)) (mgr : FontManagerM)
    (faceId point : ℕ)
    (hmiss : cacheFind mgr.glyphs (faceId, point) = none)
    (hfail : load point = none) :
    (getGlyphForCodepoint fns load mgr faceId point).fst = none ∧
    (getGlyphForCodepoint fns load mgr faceId point).snd.glyphs = mgr.glyphs ∧
    ((getGlyphForCodepoint fns load mgr faceId point).snd.atlases = mgr.atlases ∨
      (getGlyphForCodepoint fns load mgr faceId point).snd.atlases =
        mgr.atlases ++ [emptyAtlasGroup]) ∧
    (getGlyphForCodepoint fns load
      (getGlyphForCodepoint fns load mgr faceId point).snd faceId point).fst =
      none := by
  have hres : getGlyphForCodepoint fns load mgr faceId point =
      (none, getOpenAtlasGroupM mgr) := by
    simp only [getGlyphForCodepoint, hmiss, hfail]
  rw [hres]
  refine ⟨rfl, getOpen_glyphs mgr, ?_, ?_⟩
  · unfold getOpenAtlasGroupM
    split
    · exact Or.inr rfl
    · exact Or.inl rfl
  · have hmiss2 : cacheFind (getOpenAtlasGroupM mgr).glyphs (faceId, point) = none := by
      rw [getOpen_glyphs]
      exact hmiss
    simp only [getGlyphForCodepoint]
    rw [hmiss2, hfail]

/-- Witness for C10 on an empty manager and an always-failing loader. -/
theorem getGlyphForCodepoint_load_failure_stateless_witness :
    (cacheFind (⟨[], []⟩ : FontManagerM).glyphs (0, 65) = none ∧
      (fun _ : ℕ => (none : Option (GlyphMetrics × FTOutline))) 65 = none) ∧
    ((getGlyphForCodepoint fnsZero (fun _ => none) ⟨[], []⟩ 0 65).fst = none ∧
    (getGlyphForCodepoint fnsZero (fun _ => none) ⟨[], []⟩ 0 65).snd.glyphs =
      (⟨[], []⟩ : FontManagerM).glyphs ∧
    ((getGlyphForCodepoint fnsZero (fun _ => none) ⟨[], []⟩ 0 65).snd.atlases =
        (⟨[], []⟩ : FontManagerM).atlases ∨
      (getGlyphForCodepoint fnsZero (fun _ => none) ⟨[], []⟩ 0 65).snd.atlases =
        (⟨[], []⟩ : FontManagerM).atlases ++ [emptyAtlasGroup]) ∧
    (getGlyphForCodepoint fnsZero (fun _ => none)
      (getGlyphForCodepoint fnsZero (fun _ => none) ⟨[], []⟩ 0 65).snd 0 65).fst =
      none) :=
  ⟨⟨rfl, rfl⟩, getGlyphForCodepoint_load_failure_stateless fnsZero _ ⟨[], []⟩ 0 65
    rfl rfl⟩

/-- On a fresh manager, a glyph whose outline decomposes to at least one
curve is always placed: the returned record points at group 0 (not the −1
sentinel), the data cursor advances by the (uint16-truncated) record length,
and the record header is written into the glyph-data buffer. -/
theorem getGlyphForCodepoint_fresh_places (fns : FloatFns)
    (load : ℕ → Option (GlyphMetrics × FTOutline))
    (faceId point : ℕ) (lg : GlyphMetrics × FTOutline)
    (hload : load point = some lg)
    (hn0 : getCurvesForOutline fns lg.2 ≠ []) :
    ((getGlyphForCodepoint fns load ⟨[], []⟩ faceId point).fst.map
      (fun g => g.bezierAtlasPosY)) = some 0 ∧
    (getGlyphForCodepoint fns load ⟨[], []⟩ faceId point).snd.atlases.length = 1 ∧
    ((getGlyphForCodepoint fns load ⟨[], []⟩ faceId point).snd.atlases.headD
      emptyAtlasGroup).glyphDataBufOffset =
      (2 + (getCurvesForOutline fns lg.2).length * 3) % 65536 ∧
    ((getGlyphForCodepoint fns load ⟨[], []⟩ faceId point).snd.atlases.headD
      emptyAtlasGroup).glyphDataBuf 2 = kGridMaxSize := by
  have hcache : cacheFind (⟨[], []⟩ : FontManagerM).glyphs (faceId, point) = none := rfl
  have hopen : getOpenAtlasGroupM ⟨[], []⟩ = ⟨[emptyAtlasGroup], []⟩ := rfl
  have hbpl : (2 + (getCurvesForOutline fns lg.2).length * 3) % 65536 < 65536 :=
    Nat.mod_lt _ (by norm_num)
  have hcond : ¬ ((getCurvesForOutline fns lg.2).length = 0 ∨
      decide ((2 + (getCurvesForOutline fns lg.2).length * 3) % 65536 >
        kBezierAtlasSize * kBezierAtlasSize) = true) := by
    rintro (h0 | hdec)
    · exact hn0 (List.length_eq_zero.mp h0)
    · simp only [kBezierAtlasSize, decide_eq_true_eq] at hdec
      omega
  have hdatacond : ¬ ((lastAtlas (⟨[emptyAtlasGroup], []⟩ : FontManagerM)).glyphDataBufOffset +
      (2 + (getCurvesForOutline fns lg.2).length * 3) % 65536 >
      kBezierAtlasSize * kBezierAtlasSize) := by
    have h0 : (lastAtlas (⟨[emptyAtlasGroup], []⟩ : FontManagerM)).glyphDataBufOffset = 0 := rfl
    rw [h0]
    simp only [kBezierAtlasSize]
    omega
  have hgridcond : ¬ ((lastAtlas (⟨[emptyAtlasGroup], []⟩ : FontManagerM)).nextGridPosX +
      kGridMaxSize > kGridAtlasSize) := by decide
  have hres : getGlyphForCodepoint fns load ⟨[], []⟩ faceId point =
      (some ⟨(lastAtlas (⟨[emptyAtlasGroup], []⟩ : FontManagerM)).glyphDataBufOffset,
        ((⟨[emptyAtlasGroup], []⟩ : FontManagerM).atlases.length : ℤ) - 1,
        lg.1.width, lg.1.height, lg.1.horiBearingX,
        lg.1.horiBearingY - lg.1.height, lg.1.horiAdvance⟩,
      ⟨updateLast [emptyAtlasGroup] (commitGlyphWrites
        (write_glyph_data_to_buffer
          (lastAtlas (⟨[emptyAtlasGroup], []⟩ : FontManagerM)).glyphDataBuf
          ((lastAtlas (⟨[emptyAtlasGroup], []⟩ : FontManagerM)).glyphDataBufOffset * 2)
          (getCurvesForOutline fns lg.2) ⟨(lg.1.width : ℚ), (lg.1.height : ℚ)⟩
          (lastAtlas (⟨[emptyAtlasGroup], []⟩ : FontManagerM)).nextGridPosX
          (lastAtlas (⟨[emptyAtlasGroup], []⟩ : FontManagerM)).nextGridPosY
          kGridMaxSize kGridMaxSize)
        (writeVGridAt (lastAtlas (⟨[emptyAtlasGroup], []⟩ : FontManagerM)).gridAtlas
          (mkGridGlyph fns.rsqrt (getCurvesForOutline fns lg.2)
            ⟨(lg.1.width : ℚ), (lg.1.height : ℚ)⟩ kGridMaxSize kGridMaxSize)
          (lastAtlas (⟨[emptyAtlasGroup], []⟩ : FontManagerM)).nextGridPosX
          (lastAtlas (⟨[emptyAtlasGroup], []⟩ : FontManagerM)).nextGridPosY
          kGridAtlasSize)
        ((2 + (getCurvesForOutline fns lg.2).length * 3) % 65536)),
        ((faceId, point), ⟨(lastAtlas (⟨[emptyAtlasGroup], []⟩ : FontManagerM)).glyphDataBufOffset,
          ((⟨[emptyAtlasGroup], []⟩ : FontManagerM).atlases.length : ℤ) - 1,
          lg.1.width, lg.1.height, lg.1.horiBearingX,
          lg.1.horiBearingY - lg.1.height, lg.1.horiAdvance⟩) :: []⟩) := by
    simp only [getGlyphForCodepoint, hcache, hload, hopen]
    rw [if_neg hcond, if_neg hdatacond, if_neg hgridcond]
  rw [hres]
  refine ⟨by norm_num, by simp [updateLast], ?_, ?_⟩
  · simp [updateLast, commitGlyphWrites, lastAtlas, emptyAtlasGroup]
  · simp only [updateLast, List.headD_cons, commitGlyphWrites]
    have hlast : lastAtlas (⟨[emptyAtlasGroup], []⟩ : FontManagerM) = emptyAtlasGroup := rfl
    rw [hlast]
    show write_glyph_data_to_buffer (fun _ => 0) (0 * 2) (getCurvesForOutline fns lg.2)
      ⟨(lg.1.width : ℚ), (lg.1.height : ℚ)⟩ 0 0 kGridMaxSize kGridMaxSize 2 = kGridMaxSize
    unfold write_glyph_data_to_buffer writeWordsAt
    have hcnd : 0 * 2 ≤ 2 ∧ 2 - 0 * 2 < ([0, 0, kGridMaxSize, kGridMaxSize] ++
        (getCurvesForOutline fns lg.2).flatMap
          (fun b => writeBezierToBuffer b (⟨(lg.1.width : ℚ), (lg.1.height : ℚ)⟩ : Vec2Q).x
            (⟨(lg.1.width : ℚ), (lg.1.height : ℚ)⟩ : Vec2Q).y)).length := by
      simp
    rw [if_pos hcnd]
    rw [List.getD_append _ _ _ _ (by simp)]
    rfl

theorem getCurvesStep_lineTo_length (fns : FloatFns) (mx my : ℤ) (cw : Bool)
    (p : ℤ × ℤ) (acc : List Bezier2Q) (q : ℤ × ℤ) :
    ((getCurvesStep fns mx my cw (p, acc) (OutlineEvent.lineTo q)).2).length =
      acc.length + 1 := by
  simp [getCurvesStep]

theorem fold_lineTo_length (fns : FloatFns) (mx my : ℤ) (cw : Bool) (q : ℤ × ℤ) :
    ∀ (n : ℕ) (p : ℤ × ℤ) (acc : List Bezier2Q),
      (((List.replicate n (OutlineEvent.lineTo q)).foldl
        (getCurvesStep fns mx my cw) (p, acc)).2).length = acc.length + n := by
  intro n
  induction n with
  | zero => intro p acc; simp
  | succ m ih =>
    intro p acc
    rw [List.replicate_succ, List.foldl_cons]
    have h2 := ih (getCurvesStep fns mx my cw (p, acc) (OutlineEvent.lineTo q)).1
      (getCurvesStep fns mx my cw (p, acc) (OutlineEvent.lineTo q)).2
    rw [Prod.mk.eta] at h2
    rw [h2, getCurvesStep_lineTo_length]
    omega

/-- Metrics used by the too-many-curves run. -/
def metrics100 : GlyphMetrics := ⟨100, 100, 5, 6, 7⟩

/-- An outline of 21845 straight edges: its record length `2 + 3*21845 =
65537` exceeds `BEZIER_ATLAS_SIZE² = 65536`. -/
def hugeOutline : FTOutline :=
  ⟨1, [(0, 0)], 0, 0, 100, 100, FTOrientation.fillRight,
   OutlineEvent.moveTo (0, 0) :: List.replicate 21845 (OutlineEvent.lineTo (1, 1)),
   true⟩

theorem hugeOutline_curves_length :
    (getCurvesForOutline fnsZero hugeOutline).length = 21845 := by
  show (((OutlineEvent.moveTo (0, 0) ::
      List.replicate 21845 (OutlineEvent.lineTo (1, 1))).foldl
      (getCurvesStep fnsZero 0 0 true) ((0, 0), [])).2).reverse.length = 21845
  rw [List.length_reverse, List.foldl_cons]
  have hstep : getCurvesStep fnsZero 0 0 true ((0, 0), ([] : List Bezier2Q))
      (OutlineEvent.moveTo (0, 0)) = ((0, 0), []) := rfl
  rw [hstep]
  have h := fold_lineTo_length fnsZero 0 0 true (1, 1) 21845 (0, 0) []
  rw [h, List.length_nil, Nat.zero_add]

/-- C9: the too-many-curves guard can never fire, because
`bezierPixelLength` is a `uint16_t`: `(2 + 3N) mod 2¹⁶` never exceeds
`BEZIER_ATLAS_SIZE² = 65536` (the WARN branch is dead code).  Consequently a
glyph with 21845 curves — record length 65537 > 65536 — is *not* stored as
the −1 sentinel: its truncated length is 1, the record is placed in group 0,
the data cursor advances by 1, and the record header is written into the
glyph-data buffer, contradicting the claim. -/
theorem tooManyCurves_check_never_fires :
    (∀ n : ℕ, ¬ ((2 + n * 3) % 65536 > kBezierAtlasSize * kBezierAtlasSize)) ∧
    2 + (getCurvesForOutline fnsZero hugeOutline).length * 3 >
      kBezierAtlasSize * kBezierAtlasSize ∧
    ((getGlyphForCodepoint fnsZero (fun _ => some (metrics100, hugeOutline))
        ⟨[], []⟩ 0 7).fst.map (fun g => g.bezierAtlasPosY)) = some 0 ∧
    ((getGlyphForCodepoint fnsZero (fun _ => some (metrics100, hugeOutline))
        ⟨[], []⟩ 0 7).snd.atlases.headD emptyAtlasGroup).glyphDataBufOffset = 1 ∧
    ((getGlyphForCodepoint fnsZero (fun _ => some (metrics100, hugeOutline))
        ⟨[], []⟩ 0 7).snd.atlases.headD emptyAtlasGroup).glyphDataBuf 2 =
      kGridMaxSize := by
  have hlen := hugeOutline_curves_length
  have hn0 : getCurvesForOutline fnsZero hugeOutline ≠ [] := by
    intro h
    rw [h] at hlen
    simp at hlen
  have hfresh := getGlyphForCodepoint_fresh_places fnsZero
    (fun _ => some (metrics100, hugeOutline)) 0 7 (metrics100, hugeOutline) rfl hn0
  refine ⟨?_, ?_, hfresh.1, ?_, hfresh.2.2.2⟩
  · intro n
    have h := Nat.mod_lt (2 + n * 3) (show 0 < 65536 by norm_num)
    simp only [kBezierAtlasSize]
    omega
  · rw [hlen]
    norm_num [kBezierAtlasSize]
  · rw [hfresh.2.2.1]
    rw [show getCurvesForOutline fnsZero (metrics100, hugeOutline).2 =
      getCurvesForOutline fnsZero hugeOutline from rfl, hlen]

/-- Metrics of the glyph used for the grid-cursor run. -/
def c2Metrics : GlyphMetrics := ⟨1, 1, 0, 1, 1⟩

/-- A one-edge outline: every placed glyph consumes one grid tile and a
5-pixel data record. -/
def c2Outline : FTOutline :=
  ⟨1, [(0, 0)], 0, 0, 1, 1, FTOrientation.fillRight,
   [OutlineEvent.moveTo (0, 0), OutlineEvent.lineTo (1, 1)], true⟩

def c2Load : ℕ → Option (GlyphMetrics × FTOutline) :=
  fun _ => some (c2Metrics, c2Outline)

/-- The manager state after `n` distinct codepoints have been loaded through
one face. -/
def c2Run (n : ℕ) : FontManagerM :=
  (List.range n).foldl
    (fun m p => (getGlyphForCodepoint fnsZero c2Load m 0 p).snd) ⟨[], []⟩

set_option maxRecDepth 100000 in
set_option maxHeartbeats 2000000 in
/-- C2: the grid-cursor invariant is violated.  Twelve tiles fit per row
(the x check `gx + 20 > 256` wraps at `gx = 240`), so after 144 placements
the cursor is at `(240, 220)` and the 145th call wraps it to `(0, 240)`.
The code then tests `gy >= 256` — not `gy + GRID_MAX_SIZE > 256` as the
claim states — so instead of marking the group full it places the 145th
tile at `(0, 240)` in the same single group: the group count stays 1, the
145th record's header words read back grid position `(0, 240)`, and the
cursor advances to `(20, 240)`.  That tile spans grid-atlas rows 240..259
of a 256-row atlas, violating the `assert` of `VGridAtlas::WriteVGridAt`
(`atY + grid.height ≤ height`). -/
theorem gridCursor_overflow_places_tile :
    (lastAtlas (c2Run 144)).nextGridPosX = 240 ∧
    (lastAtlas (c2Run 144)).nextGridPosY = 220 ∧
    (c2Run 145).atlases.length = 1 ∧
    (lastAtlas (c2Run 145)).full = false ∧
    (lastAtlas (c2Run 145)).nextGridPosX = 20 ∧
    (lastAtlas (c2Run 145)).nextGridPosY = 240 ∧
    (lastAtlas (c2Run 145)).glyphDataBuf 1440 = 0 ∧
    (lastAtlas (c2Run 145)).glyphDataBuf 1441 = 240 ∧
    ¬ writeVGridAtAssertOk
      (mkGridGlyph fnsZero.rsqrt (getCurvesForOutline fnsZero c2Outline)
        ⟨(1 : ℚ), (1 : ℚ)⟩ kGridMaxSize kGridMaxSize) 0 240
      kGridAtlasSize kGridAtlasSize := by
  refine ⟨by decide, by decide, by decide, by decide, by decide, by decide,
    by decide, by decide, ?_⟩
  unfold writeVGridAtAssertOk
  decide
